import Mathlib

/-!
Verification development for the toposcope Linux hardware collector
(src/toposcope/collect/linux.py and src/toposcope/model.py).

The collector invokes external diagnostic tools, parses their text output and
assembles a typed node/edge graph.  We shallowly embed the collector here:

* external state (tool availability, tool output texts, the sysfs NUMA
  directory tree) becomes an explicit `Env` record;
* every per-tool parser becomes a Lean function translated line by line from
  the Python source;
* Python library primitives used by the source (str.splitlines, str.strip,
  re patterns, json.loads, dict operations, truthiness, str()) are modelled
  by small executable helpers defined first.

Conventions for the embedding of Python semantics:
* Python `None` and JSON `null` are the same object; both are `Json.null`.
* The specific regular expressions used by the source are compiled by hand
  into deterministic scanners; each one is noted next to its pattern.  The
  patterns involved have disjoint character classes around every greedy
  repetition, so leftmost matching with maximal munch is exact.
* Values pulled out of decoded JSON and stored into node property maps are
  stored through `pyStr` (Python str()); the source stores the raw decoded
  object.  No claim below distinguishes the two: only emptiness and equality
  with concrete strings are ever used.
* Python float arithmetic (only used to pretty-print sizes with one decimal)
  is modelled over `ℚ` with round-half-up; the claims never depend on the
  rounding direction of a tie.
-/

namespace Toposcope

/-! ## Python string primitives -/

/-- Line-break characters recognised by Python str.splitlines. -/
def isLineBreak (c : Char) : Bool :=
  c = '\n' || c = '\r' || c = '\x0b' || c = '\x0c' ||
  c = '\x1c' || c = '\x1d' || c = '\x1e' || c = '\x85' ||
  c = '\u2028' || c = '\u2029'

/-- Whitespace for Python str.strip / str.split / the regex class \s. -/
def isPySpace (c : Char) : Bool :=
  c = ' ' || c = '\t' || isLineBreak c

def pySplitlinesAux : List Char → List Char → List String
  | [], acc => if acc.isEmpty then [] else [⟨acc.reverse⟩]
  | '\r' :: '\n' :: rest, acc => ⟨acc.reverse⟩ :: pySplitlinesAux rest []
  | c :: rest, acc =>
    if isLineBreak c then ⟨acc.reverse⟩ :: pySplitlinesAux rest []
    else pySplitlinesAux rest (c :: acc)

/-- Python str.splitlines. -/
def pySplitlines (s : String) : List String :=
  pySplitlinesAux s.data []

/-- Python str.strip with no argument. -/
def pyStrip (s : String) : String :=
  ⟨((s.data.dropWhile isPySpace).reverse.dropWhile isPySpace).reverse⟩

/-- Python str.rstrip with no argument. -/
def pyRstrip (s : String) : String :=
  ⟨(s.data.reverse.dropWhile isPySpace).reverse⟩

/-- Python str.strip(chars) for an explicit character set. -/
def pyStripChars (cs : List Char) (s : String) : String :=
  ⟨((s.data.dropWhile (cs.contains ·)).reverse.dropWhile (cs.contains ·)).reverse⟩

def pySplitWsAux : List Char → List Char → List String
  | [], acc => if acc.isEmpty then [] else [⟨acc.reverse⟩]
  | c :: rest, acc =>
    if isPySpace c then
      if acc.isEmpty then pySplitWsAux rest []
      else ⟨acc.reverse⟩ :: pySplitWsAux rest []
    else pySplitWsAux rest (c :: acc)

/-- Python str.split with no argument: split on whitespace runs, no empties. -/
def pySplitWs (s : String) : List String :=
  pySplitWsAux s.data []

def listIsPre : List Char → List Char → Bool
  | [], _ => true
  | _ :: _, [] => false
  | a :: as, b :: bs => a = b && listIsPre as bs

def listIsSub (needle : List Char) : List Char → Bool
  | [] => needle.isEmpty
  | b :: bs => listIsPre needle (b :: bs) || listIsSub needle bs

/-- Substring containment, Python needle in hay. -/
def strContains (hay needle : String) : Bool :=
  listIsSub needle.data hay.data

/-- ASCII lowercase of one character; Python str.lower on the tool outputs
compared, which are ASCII. -/
def charLower (c : Char) : Char :=
  if 'A' ≤ c && c ≤ 'Z' then Char.ofNat (c.toNat + 32) else c

/-- Python s.lower(). -/
def strLower (s : String) : String :=
  ⟨s.data.map charLower⟩

/-- Python s.startswith(pre). -/
def strStarts (s pre : String) : Bool :=
  listIsPre pre.data s.data

/-- The text before and after the first occurrence of sep, scanning left to
right; none when sep does not occur. -/
def splitFirstAux (sep : List Char) : List Char → Option (List Char × List Char)
  | [] => none
  | c :: rest =>
    if listIsPre sep (c :: rest) then some ([], List.drop sep.length (c :: rest))
    else match splitFirstAux sep rest with
      | none => none
      | some (pre, post) => some (c :: pre, post)

def pySplitOnFuel (sep : List Char) : Nat → List Char → List (List Char)
  | 0, cs => [cs]
  | fuel + 1, cs =>
    match splitFirstAux sep cs with
    | none => [cs]
    | some (pre, post) => pre :: pySplitOnFuel sep fuel post

/-- Python s.split(sep) for a non-empty separator. -/
def pySplitOn (s sep : String) : List String :=
  if sep.data.isEmpty then [s]
  else (pySplitOnFuel sep.data (s.data.length + 1) s.data).map (fun l => ⟨l⟩)

/-- The part of s before the first occurrence of sep, the whole of s when sep
does not occur: Python s.split(sep)[0] and s.split(sep, 1)[0]. -/
def pyBeforeFirst (s sep : String) : String :=
  (pySplitOn s sep).headD s

def digitsToNat (cs : List Char) : Nat :=
  cs.foldl (fun n c => n * 10 + (c.toNat - 48)) 0

def natReprAux : Nat → Nat → List Char → List Char
  | _, 0, acc => acc
  | 0, _, acc => acc
  | fuel + 1, n + 1, acc =>
    natReprAux fuel ((n + 1) / 10) (Nat.digitChar ((n + 1) % 10) :: acc)

/-- Decimal representation of a natural number, Python str(n).  The fuel of
the auxiliary bounds the digit count; the value itself always suffices. -/
def natRepr (n : Nat) : String :=
  if n = 0 then "0" else ⟨natReprAux n n []⟩

/-- Decimal representation of an integer, Python str(i). -/
def intRepr (i : Int) : String :=
  if i < 0 then "-" ++ natRepr i.natAbs else natRepr i.natAbs

/-! ## Python float formatting over ℚ -/

/-- Python f-string {x:.1f} for a nonnegative rational, with round-half-up in
place of the IEEE tie behaviour (no claim depends on ties). -/
def fmt1 (q : ℚ) : String :=
  let n : ℤ := round (q * 10)
  intRepr (n / 10) ++ "." ++ natRepr (n % 10).natAbs

/-- Python round(x, 1) over ℚ. -/
def ratRound1 (q : ℚ) : ℚ :=
  ((round (q * 10) : ℤ) : ℚ) / 10

/-- Python float(s): parse a decimal literal, None on failure. -/
def pyFloat? (s : String) : Option ℚ :=
  let cs := (pyStrip s).data
  let sgncs : ℚ × List Char :=
    match cs with
    | '+' :: r => (1, r)
    | '-' :: r => (-1, r)
    | r => (1, r)
  let sgn := sgncs.1
  let cs1 := sgncs.2
  let ip := cs1.takeWhile Char.isDigit
  let rest1 := cs1.dropWhile Char.isDigit
  let fprest : List Char × List Char :=
    match rest1 with
    | '.' :: r => (r.takeWhile Char.isDigit, r.dropWhile Char.isDigit)
    | _ => ([], rest1)
  let fp := fprest.1
  let rest2 := fprest.2
  let hasDot : Bool := match rest1 with | '.' :: _ => true | _ => false
  if ip.isEmpty && (fp.isEmpty || !hasDot) then none
  else
    let mant : ℚ := (digitsToNat ip : ℚ) + (digitsToNat fp : ℚ) / (10 : ℚ) ^ fp.length
    match rest2 with
    | [] => some (sgn * mant)
    | 'e' :: r =>
      let esr : ℤ × List Char :=
        match r with
        | '+' :: r2 => (1, r2)
        | '-' :: r2 => (-1, r2)
        | r2 => (1, r2)
      let ed := esr.2.takeWhile Char.isDigit
      if ed.isEmpty || !(esr.2.dropWhile Char.isDigit).isEmpty then none
      else some (sgn * mant * (10 : ℚ) ^ (esr.1 * (digitsToNat ed : ℤ)))
    | 'E' :: r =>
      let esr : ℤ × List Char :=
        match r with
        | '+' :: r2 => (1, r2)
        | '-' :: r2 => (-1, r2)
        | r2 => (1, r2)
      let ed := esr.2.takeWhile Char.isDigit
      if ed.isEmpty || !(esr.2.dropWhile Char.isDigit).isEmpty then none
      else some (sgn * mant * (10 : ℚ) ^ (esr.1 * (digitsToNat ed : ℤ)))
    | _ => none

/-- Python s.isdigit() restricted to ASCII digits as produced by the tools. -/
def pyIsDigit (s : String) : Bool :=
  !s.isEmpty && s.data.all Char.isDigit

/-! ## String-keyed dictionaries (Python dict with string keys) -/

/-- Python d[k] = v: replace in place if the key exists, else append. -/
def dictSet {α : Type} : List (String × α) → String → α → List (String × α)
  | [], k, v => [(k, v)]
  | (k0, v0) :: rest, k, v =>
    if k0 = k then (k, v) :: rest else (k0, v0) :: dictSet rest k v

/-- Python d.get(k) with absence as none. -/
def dictGet {α : Type} (d : List (String × α)) (k : String) : Option α :=
  (d.find? (fun p => p.1 == k)).map Prod.snd

/-- Python d.update(other) for string-valued dicts. -/
def dictUpdate (d other : List (String × String)) : List (String × String) :=
  other.foldl (fun d p => dictSet d p.1 p.2) d

/-- Python or on strings (None is folded to "", equivalent under or). -/
def pyOrS (a b : String) : String :=
  if a ≠ "" then a else b

/-- Python d.get(k, dflt) for string dicts where the default matters. -/
def dictGetD (d : List (String × String)) (k : String) (dflt : String) : String :=
  (dictGet d k).getD dflt

/-- Python d.get(k) or "" for string dicts; absent and empty coincide under
truthiness, which is the only way such values are consumed. -/
def pyGetS (d : List (String × String)) (k : String) : String :=
  dictGetD d k ""

/-! ## JSON values and json.loads -/

/-- Decoded JSON values; Python None and JSON null are both Json.null. -/
inductive Json where
  | null : Json
  | bool : Bool → Json
  | num : ℚ → Json
  | str : String → Json
  | arr : List Json → Json
  | obj : List (String × Json) → Json
deriving Repr

/-- Python attribute access j.get-style lookup on dicts; on any non-dict the
source would raise, modelled as absence (see the note at the top). -/
def Json.find? : Json → String → Option Json
  | .obj kvs, k => dictGet kvs k
  | _, _ => none

/-- Python d.get(k, dflt) on a decoded object. -/
def Json.getJD (j : Json) (k : String) (dflt : Json) : Json :=
  (Json.find? j k).getD dflt

/-- Python d.get(k) on a decoded object: absent gives None ( = null). -/
def Json.getJ (j : Json) (k : String) : Json :=
  Json.getJD j k Json.null

/-- Python truthiness of a decoded value. -/
def pyTruthy : Json → Bool
  | .null => false
  | .bool b => b
  | .num q => q != 0
  | .str s => s != ""
  | .arr xs => !xs.isEmpty
  | .obj kvs => !kvs.isEmpty

/-- Python a or b on decoded values. -/
def pyOr (a b : Json) : Json :=
  if pyTruthy a then a else b

mutual
/-- Python str() of a decoded value.  Container and non-integer reprs are
schematic (the claims only use emptiness, and concrete inputs are scalars). -/
def pyStr : Json → String
  | .null => "None"
  | .bool true => "True"
  | .bool false => "False"
  | .num q => if q.den = 1 then intRepr q.num else intRepr q.num ++ "/" ++ natRepr q.den
  | .str s => s
  | .arr xs => "[" ++ String.intercalate ", " (pyStrL xs) ++ "]"
  | .obj kvs => "\x7b" ++ String.intercalate ", " (pyStrKV kvs) ++ "\x7d"

def pyStrL : List Json → List String
  | [] => []
  | x :: xs => pyStr x :: pyStrL xs

def pyStrKV : List (String × Json) → List String
  | [] => []
  | (k, v) :: xs => (k ++ ": " ++ pyStr v) :: pyStrKV xs
end

mutual
/-- Structural size of a decoded value, used as recursion fuel below. -/
def jsonSize : Json → Nat
  | .null => 1
  | .bool _ => 1
  | .num _ => 1
  | .str _ => 1
  | .arr xs => 1 + jsonSizeL xs
  | .obj kvs => 1 + jsonSizeKV kvs

def jsonSizeL : List Json → Nat
  | [] => 1
  | x :: xs => 1 + jsonSize x + jsonSizeL xs

def jsonSizeKV : List (String × Json) → Nat
  | [] => 1
  | (_, v) :: xs => 1 + jsonSize v + jsonSizeKV xs
end

/-- Python int(v): int of a decoded value, None when it raises. -/
def pyInt? : Json → Option ℤ
  | .bool true => some 1
  | .bool false => some 0
  | .num q => some (q.num / (q.den : ℤ))
  | .str s =>
    let cs := (pyStrip s).data
    let sgncs : ℤ × List Char :=
      match cs with
      | '+' :: r => (1, r)
      | '-' :: r => (-1, r)
      | r => (1, r)
    if sgncs.2.isEmpty || !sgncs.2.all Char.isDigit then none
    else some (sgncs.1 * (digitsToNat sgncs.2 : ℤ))
  | _ => none

def isHexDigit (c : Char) : Bool :=
  c.isDigit || ('a' ≤ c && c ≤ 'f') || ('A' ≤ c && c ≤ 'F')

def hexVal (c : Char) : Nat :=
  if c.isDigit then c.toNat - 48
  else if 'a' ≤ c && c ≤ 'f' then c.toNat - 87
  else c.toNat - 55

/-- JSON whitespace accepted between tokens by json.loads. -/
def jsonWs (cs : List Char) : List Char :=
  cs.dropWhile (fun c => c = ' ' || c = '\t' || c = '\n' || c = '\r')

def parseJStrAux : List Char → List Char → Option (String × List Char)
  | [], _ => none
  | '"' :: r, acc => some (⟨acc.reverse⟩, r)
  | '\\' :: e :: r, acc =>
    match e with
    | '"' => parseJStrAux r ('"' :: acc)
    | '\\' => parseJStrAux r ('\\' :: acc)
    | '/' => parseJStrAux r ('/' :: acc)
    | 'b' => parseJStrAux r ('\x08' :: acc)
    | 'f' => parseJStrAux r ('\x0c' :: acc)
    | 'n' => parseJStrAux r ('\n' :: acc)
    | 'r' => parseJStrAux r ('\r' :: acc)
    | 't' => parseJStrAux r ('\t' :: acc)
    | 'u' =>
      match r with
      | a :: b :: c :: d :: r2 =>
        if isHexDigit a && isHexDigit b && isHexDigit c && isHexDigit d then
          parseJStrAux r2
            (Char.ofNat (hexVal a * 4096 + hexVal b * 256 + hexVal c * 16 + hexVal d) :: acc)
        else none
      | _ => none
    | _ => none
  | c :: r, acc => parseJStrAux r (c :: acc)

/-- JSON number literal. -/
def parseJNum (cs : List Char) : Option (ℚ × List Char) :=
  let sgncs : ℚ × List Char :=
    match cs with
    | '-' :: r => (-1, r)
    | r => (1, r)
  let sgn := sgncs.1
  let cs1 := sgncs.2
  let ip := cs1.takeWhile Char.isDigit
  let rest1 := cs1.dropWhile Char.isDigit
  if ip.isEmpty then none
  else
    let fprest : List Char × List Char :=
      match rest1 with
      | '.' :: r => (r.takeWhile Char.isDigit, r.dropWhile Char.isDigit)
      | _ => ([], rest1)
    let fp := fprest.1
    let rest2 := fprest.2
    let dotNoFrac : Bool := match rest1 with | '.' :: _ => fp.isEmpty | _ => false
    if dotNoFrac then none
    else
      let mant : ℚ := (digitsToNat ip : ℚ) + (digitsToNat fp : ℚ) / (10 : ℚ) ^ fp.length
      match rest2 with
      | 'e' :: r =>
        let esr : ℤ × List Char :=
          match r with
          | '+' :: r2 => (1, r2)
          | '-' :: r2 => (-1, r2)
          | r2 => (1, r2)
        let ed := esr.2.takeWhile Char.isDigit
        if ed.isEmpty then none
        else some (sgn * mant * (10 : ℚ) ^ (esr.1 * (digitsToNat ed : ℤ)),
                   esr.2.dropWhile Char.isDigit)
      | 'E' :: r =>
        let esr : ℤ × List Char :=
          match r with
          | '+' :: r2 => (1, r2)
          | '-' :: r2 => (-1, r2)
          | r2 => (1, r2)
        let ed := esr.2.takeWhile Char.isDigit
        if ed.isEmpty then none
        else some (sgn * mant * (10 : ℚ) ^ (esr.1 * (digitsToNat ed : ℤ)),
                   esr.2.dropWhile Char.isDigit)
      | _ => some (sgn * mant, rest2)

mutual
def parseJVal : Nat → List Char → Option (Json × List Char)
  | 0, _ => none
  | Nat.succ fuel, cs =>
    match jsonWs cs with
    | 'n' :: 'u' :: 'l' :: 'l' :: r => some (Json.null, r)
    | 't' :: 'r' :: 'u' :: 'e' :: r => some (Json.bool true, r)
    | 'f' :: 'a' :: 'l' :: 's' :: 'e' :: r => some (Json.bool false, r)
    | '"' :: r =>
      match parseJStrAux r [] with
      | some (s, r2) => some (Json.str s, r2)
      | none => none
    | '[' :: r =>
      match jsonWs r with
      | ']' :: r2 => some (Json.arr [], r2)
      | r2 => parseJArrItems fuel r2 []
    | '\x7b' :: r =>
      match jsonWs r with
      | '\x7d' :: r2 => some (Json.obj [], r2)
      | r2 => parseJObjItems fuel r2 []
    | rest =>
      match parseJNum rest with
      | some (q, r) => some (Json.num q, r)
      | none => none

def parseJArrItems : Nat → List Char → List Json → Option (Json × List Char)
  | 0, _, _ => none
  | Nat.succ fuel, cs, acc =>
    match parseJVal fuel cs with
    | none => none
    | some (v, r) =>
      match jsonWs r with
      | ',' :: r2 => parseJArrItems fuel r2 (acc ++ [v])
      | ']' :: r2 => some (Json.arr (acc ++ [v]), r2)
      | _ => none

def parseJObjItems : Nat → List Char → List (String × Json) → Option (Json × List Char)
  | 0, _, _ => none
  | Nat.succ fuel, cs, acc =>
    match jsonWs cs with
    | '"' :: r =>
      match parseJStrAux r [] with
      | none => none
      | some (k, r2) =>
        match jsonWs r2 with
        | ':' :: r3 =>
          match parseJVal fuel r3 with
          | none => none
          | some (v, r4) =>
            let acc2 := dictSet acc k v
            match jsonWs r4 with
            | ',' :: r5 => parseJObjItems fuel r5 acc2
            | '\x7d' :: r5 => some (Json.obj acc2, r5)
            | _ => none
        | _ => none
    | _ => none
end

/-- Python json.loads: None on any decode error. -/
def jsonLoads (s : String) : Option Json :=
  match parseJVal (s.length + 1) s.data with
  | some (v, r) => if (jsonWs r).isEmpty then some v else none
  | none => none

/-! ## The graph model (model.py) -/

/-- model.py Node: id, kind, label, properties. -/
structure Node where
  id : String
  kind : String
  label : String
  properties : List (String × String)
deriving Repr, DecidableEq

/-- model.py Edge: id, source, target, kind, label. -/
structure Edge where
  id : String
  source : String
  target : String
  kind : String
  label : String
deriving Repr, DecidableEq

/-- model.py Graph: ordered nodes and edges. -/
structure Graph where
  nodes : List Node
  edges : List Edge
deriving Repr, DecidableEq

/-! ## The external environment

collect_linux_hardware_graph reads the host through _which (tool on PATH),
_run (captured stdout text, empty on any failure) and direct sysfs reads in
_collect_numa_nodes.  Env packages that external state; each field is the
result the corresponding call would yield during one collection run. -/

/-- One directory under /sys/devices/system/node: its name and the contents
of its cpulist and meminfo files (none when the read raises). -/
structure NumaDir where
  name : String
  cpulist : Option String
  meminfo : Option String
deriving Repr

structure Env where
  uname_nodename : String
  platform_platform : String
  which_lscpu : Bool
  lscpu_out : String
  which_dmidecode : Bool
  dmi_processor_out : String
  dmi_memory_out : String
  sysfs_node_isdir : Bool
  sysfs_node_dirs : List NumaDir
  meminfo_out : String
  which_lspci : Bool
  lspci_vmm_out : String
  lspci_vv_out : String
  which_nvidia_smi : Bool
  nvidia_smi_out : String
  which_rocm_smi : Bool
  rocm_smi_out1 : String
  rocm_smi_out2 : String
  which_lsusb : Bool
  lsusb_out : String
  which_nvme : Bool
  nvme_out : String
  which_lsblk : Bool
  lsblk_out : String
  which_ip : Bool
  ip_out : String
  which_ethtool : Bool
  ethtool_i_out : String → String
  ethtool_out : String → String

/-! ## Hand-compiled regular expressions

Each scanner below compiles one concrete pattern from linux.py.  All these
patterns have disjoint character classes around every greedy repetition, so
no backtracking can occur and leftmost matching with maximal munch is the
exact semantics. -/

/-- Leftmost search: try the matcher at every suffix, left to right. -/
def searchFrom {α : Type} (tryAt : List Char → Option α) : List Char → Option α
  | [] => tryAt []
  | c :: rest =>
    match tryAt (c :: rest) with
    | some r => some r
    | none => searchFrom tryAt rest

/-- Expect an exact literal. -/
def expectLit : List Char → List Char → Option (List Char)
  | [], cs => some cs
  | _ :: _, [] => none
  | l :: ls, c :: cs => if c = l then expectLit ls cs else none

/-- One-or-more whitespace. -/
def takeWs1 (cs : List Char) : Option (List Char) :=
  if (cs.takeWhile isPySpace).isEmpty then none else some (cs.dropWhile isPySpace)

/-- One-or-more digits, returned with the rest. -/
def takeDigits1 (cs : List Char) : Option (String × List Char) :=
  let ds := cs.takeWhile Char.isDigit
  if ds.isEmpty then none else some (⟨ds⟩, cs.dropWhile Char.isDigit)

/-- Exactly four hex digits. -/
def takeHex4 : List Char → Option (String × List Char)
  | a :: b :: c :: d :: r =>
    if isHexDigit a && isHexDigit b && isHexDigit c && isHexDigit d then
      some (⟨[a, b, c, d]⟩, r)
    else none
  | _ => none

/-- Pattern (caret)([^:]+):(backslash-s)*(.*)$ shared by the vmm and dmidecode
stanza parsers; gives the raw key group and the value after the skipped
whitespace (both are stripped by the callers). -/
def kvMatch (line : String) : Option (String × String) :=
  let cs := line.data
  let key := cs.takeWhile (· ≠ ':')
  match cs.dropWhile (· ≠ ':') with
  | ':' :: rest =>
    if key.isEmpty then none
    else some (⟨key⟩, ⟨rest.dropWhile isPySpace⟩)
  | _ => none

/-- Anchored pattern of _parse_ip_link_brief:
(caret)((backslash-S)+)(backslash-s)+((backslash-S)+)(backslash-s)+([0-9a-fA-F:]\x7b17\x7d). -/
def matchIpLink (line : String) : Option (String × String × String) :=
  let cs := line.data
  let t1 := cs.takeWhile (fun c => !isPySpace c)
  if t1.isEmpty then none
  else match takeWs1 (cs.dropWhile (fun c => !isPySpace c)) with
  | none => none
  | some r2 =>
    let t2 := r2.takeWhile (fun c => !isPySpace c)
    if t2.isEmpty then none
    else match takeWs1 (r2.dropWhile (fun c => !isPySpace c)) with
    | none => none
    | some r4 =>
      let mac := r4.take 17
      if mac.length = 17 && mac.all (fun c => isHexDigit c || c = ':') then
        some (⟨t1⟩, ⟨t2⟩, ⟨mac⟩)
      else none

/-- Anchored slot pattern of _parse_lspci_vv_links:
(caret)([0-9a-fA-F]\x7b2\x7d:[0-9a-fA-F]\x7b2\x7d\.[0-7]) followed by a space. -/
def matchVvSlot (line : String) : Option String :=
  match line.data with
  | a :: b :: ':' :: c :: d :: '.' :: f :: ' ' :: _ =>
    if isHexDigit a && isHexDigit b && isHexDigit c && isHexDigit d &&
       '0' ≤ f && f ≤ '7' then
      some ⟨[a, b, ':', c, d, '.', f]⟩
    else none
  | _ => none

/-- Matcher for Speed(backslash-s)+([0-9.]+)GT/s at one position. -/
def lnkSpeedAt : List Char → Option String
  | 'S' :: 'p' :: 'e' :: 'e' :: 'd' :: r =>
    match takeWs1 r with
    | none => none
    | some r1 =>
      let num := r1.takeWhile (fun c => c.isDigit || c = '.')
      if num.isEmpty then none
      else match r1.dropWhile (fun c => c.isDigit || c = '.') with
        | 'G' :: 'T' :: '/' :: 's' :: _ => some ⟨num⟩
        | _ => none
  | _ => none

def searchLnkSpeed (line : String) : Option String :=
  searchFrom lnkSpeedAt line.data

/-- Matcher for Width(backslash-s)+(x(backslash-d)+) at one position. -/
def lnkWidthAt : List Char → Option String
  | 'W' :: 'i' :: 'd' :: 't' :: 'h' :: r =>
    match takeWs1 r with
    | none => none
    | some r1 =>
      match r1 with
      | 'x' :: r2 =>
        let ds := r2.takeWhile Char.isDigit
        if ds.isEmpty then none else some ⟨'x' :: ds⟩
      | _ => none
  | _ => none

def searchLnkWidth (line : String) : Option String :=
  searchFrom lnkWidthAt line.data

/-- Matcher for a bracketed 4-hex-digit group as in _parse_lspci_vmm. -/
def brHexAt : List Char → Option String
  | '[' :: a :: b :: c :: d :: ']' :: _ =>
    if isHexDigit a && isHexDigit b && isHexDigit c && isHexDigit d then
      some ⟨[a, b, c, d]⟩
    else none
  | _ => none

def searchBrHex (s : String) : Option String :=
  searchFrom brHexAt s.data

/-- End-anchored bus-address tail ([0-9a-fA-F]\x7b2\x7d:[0-9a-fA-F]\x7b2\x7d\.[0-7])$
used for slot and bus-id tails; the $ also matches before one trailing
newline, as in Python. -/
def bdfTail (s : String) : Option String :=
  let rcs := match s.data.reverse with
    | '\n' :: r => r
    | r => r
  match rcs with
  | f :: '.' :: d :: c :: ':' :: b :: a :: _ =>
    if isHexDigit a && isHexDigit b && isHexDigit c && isHexDigit d &&
       '0' ≤ f && f ≤ '7' then
      some ⟨[a, b, ':', c, d, '.', f]⟩
    else none
  | _ => none

/-- Matcher for a full 4-segment bus address
([0-9a-fA-F]\x7b4\x7d:[0-9a-fA-F]\x7b2\x7d:[0-9a-fA-F]\x7b2\x7d\.[0-7]) at one position. -/
def bdfFullAt : List Char → Option String
  | a :: b :: c :: d :: ':' :: e :: f :: ':' :: g :: h :: '.' :: i :: _ =>
    if isHexDigit a && isHexDigit b && isHexDigit c && isHexDigit d &&
       isHexDigit e && isHexDigit f && isHexDigit g && isHexDigit h &&
       '0' ≤ i && i ≤ '7' then
      some ⟨[a, b, c, d, ':', e, f, ':', g, h, '.', i]⟩
    else none
  | _ => none

def searchBdfFull (s : String) : Option String :=
  searchFrom bdfFullAt s.data

/-- Matcher for Speed:(backslash-s)*([0-9]+)(backslash-s)*Mb/s at one position. -/
def speedMbAt : List Char → Option Nat
  | 'S' :: 'p' :: 'e' :: 'e' :: 'd' :: ':' :: r =>
    let r1 := r.dropWhile isPySpace
    let ds := r1.takeWhile Char.isDigit
    if ds.isEmpty then none
    else match (r1.dropWhile Char.isDigit).dropWhile isPySpace with
      | 'M' :: 'b' :: '/' :: 's' :: _ => some (digitsToNat ds)
      | _ => none
  | _ => none

/-- Matcher for Speed:(backslash-s)*([0-9]+)(backslash-s)*Gb/s at one position. -/
def speedGbAt : List Char → Option Nat
  | 'S' :: 'p' :: 'e' :: 'e' :: 'd' :: ':' :: r =>
    let r1 := r.dropWhile isPySpace
    let ds := r1.takeWhile Char.isDigit
    if ds.isEmpty then none
    else match (r1.dropWhile Char.isDigit).dropWhile isPySpace with
      | 'G' :: 'b' :: '/' :: 's' :: _ => some (digitsToNat ds)
      | _ => none
  | _ => none

/-- Anchored Current Speed:(backslash-s)*([0-9]+)(backslash-s)*MHz. -/
def matchCurSpeed (line : String) : Option String :=
  match expectLit "Current Speed:".data line.data with
  | none => none
  | some r =>
    let r1 := r.dropWhile isPySpace
    let ds := r1.takeWhile Char.isDigit
    if ds.isEmpty then none
    else match (r1.dropWhile Char.isDigit).dropWhile isPySpace with
      | 'M' :: 'H' :: 'z' :: _ => some ⟨ds⟩
      | _ => none

/-- Anchored Max Speed:(backslash-s)*([0-9]+)(backslash-s)*MHz. -/
def matchMaxSpeed (line : String) : Option String :=
  match expectLit "Max Speed:".data line.data with
  | none => none
  | some r =>
    let r1 := r.dropWhile isPySpace
    let ds := r1.takeWhile Char.isDigit
    if ds.isEmpty then none
    else match (r1.dropWhile Char.isDigit).dropWhile isPySpace with
      | 'M' :: 'H' :: 'z' :: _ => some ⟨ds⟩
      | _ => none

/-- Matcher for ((backslash-d)+)(backslash-s)* followed by a two-letter unit,
case-insensitively: the DIMM size patterns. -/
def sizeNumAt (u1 u2 : Char) (cs : List Char) : Option Nat :=
  let ds := cs.takeWhile Char.isDigit
  if ds.isEmpty then none
  else match (cs.dropWhile Char.isDigit).dropWhile isPySpace with
    | c1 :: c2 :: _ =>
      if c1.toLower = u1 && c2.toLower = u2 then some (digitsToNat ds) else none
    | _ => none

def searchSizeMB (s : String) : Option Nat :=
  searchFrom (sizeNumAt 'm' 'b') s.data

def searchSizeGB (s : String) : Option Nat :=
  searchFrom (sizeNumAt 'g' 'b') s.data

/-- Matcher for a bare digit run ([0-9]+), rocm number extraction. -/
def digitRunAt (cs : List Char) : Option Nat :=
  let ds := cs.takeWhile Char.isDigit
  if ds.isEmpty then none else some (digitsToNat ds)

def searchDigits (s : String) : Option Nat :=
  searchFrom digitRunAt s.data

/-- A double-quoted group "([^"]*)". -/
def takeQuoted : List Char → Option (String × List Char)
  | '"' :: r =>
    let q := r.takeWhile (· ≠ '"')
    match r.dropWhile (· ≠ '"') with
    | '"' :: r2 => some (⟨q⟩, r2)
    | _ => none
  | _ => none

/-- One-or-more whitespace then a double-quoted group. -/
def takeWsQuoted (cs : List Char) : Option (String × List Char) :=
  match takeWs1 cs with
  | none => none
  | some r1 => takeQuoted r1

/-- Anchored line pattern of _parse_lspci_mm: an address token then three
double-quoted groups then the rest of the line. -/
def matchLspciMm (line : String) : Option (String × String × String × String × String) :=
  let cs := line.data
  let t1 := cs.takeWhile (fun c => !isPySpace c)
  if t1.isEmpty then none
  else
    match takeWsQuoted (cs.dropWhile (fun c => !isPySpace c)) with
    | none => none
    | some (q1, r2) =>
      match takeWsQuoted r2 with
      | none => none
      | some (q2, r4) =>
        match takeWsQuoted r4 with
        | none => none
        | some (q3, r6) => some (⟨t1⟩, q1, q2, q3, ⟨r6⟩)

/-- Matcher for the MULTILINE pattern of _parse_cpuinfo_current_mhz at a line
start: cpu MHz(backslash-s)*:(backslash-s)*([0-9]+(\.[0-9]+)?). -/
def cpuMhzAt (cs : List Char) : Option String :=
  match expectLit "cpu MHz".data cs with
  | none => none
  | some r =>
    match r.dropWhile isPySpace with
    | ':' :: r2 =>
      let r3 := r2.dropWhile isPySpace
      let ds := r3.takeWhile Char.isDigit
      if ds.isEmpty then none
      else match r3.dropWhile Char.isDigit with
        | '.' :: r4 =>
          let fs := r4.takeWhile Char.isDigit
          if fs.isEmpty then some ⟨ds⟩ else some ⟨ds ++ '.' :: fs⟩
        | _ => some ⟨ds⟩
    | _ => none

def searchMlAux {α : Type} (tryAt : List Char → Option α) : List Char → Option α
  | [] => none
  | c :: rest =>
    if c = '\n' then
      match tryAt rest with
      | some r => some r
      | none => searchMlAux tryAt rest
    else searchMlAux tryAt rest

/-- MULTILINE re.search for a (caret)-anchored pattern: try the start of the
text and the position after every newline, in order. -/
def searchMultiline {α : Type} (tryAt : List Char → Option α) (cs : List Char) : Option α :=
  match tryAt cs with
  | some r => some r
  | none => searchMlAux tryAt cs

/-- Python s.split(sep, 1)[1]: everything after the first occurrence of sep;
callers only use it when sep occurs. -/
def pyAfterFirst (s sep : String) : String :=
  match pySplitOn s sep with
  | _ :: rest@(_ :: _) => String.intercalate sep rest
  | _ => s

def charListLt : List Char → List Char → Bool
  | [], [] => false
  | [], _ :: _ => true
  | _ :: _, [] => false
  | a :: as, b :: bs => if a < b then true else if b < a then false else charListLt as bs

/-- Python string comparison a <= b (code-point lexicographic). -/
def strLeB (a b : String) : Bool :=
  !charListLt b.data a.data

def insertStr (s : String) : List String → List String
  | [] => [s]
  | t :: rest => if strLeB s t then s :: t :: rest else t :: insertStr s rest

/-- Python sorted() for lists of strings (insertion sort). -/
def pySortedStr (l : List String) : List String :=
  l.foldr insertStr []

/-! ## Per-tool parsers (linux.py) -/

/-- linux.py _parse_lspci_mm (lines 26-49): quoted-field lspci -mm lines to
pci-device nodes.  Not invoked by the assembler (superseded by the vmm
parser) but part of the parser set. -/
def _parse_lspci_mm (output : String) : List Node :=
  (pySplitlines output).foldl (fun nodes raw =>
    let line := pyStrip raw
    if line = "" then nodes
    else match matchLspciMm line with
    | none => nodes
    | some (address, cls, vendor, device, _rest) =>
      nodes ++ [⟨"pci:" ++ address, "pci-device", vendor ++ " " ++ device,
                 [("class", cls), ("address", address)]⟩]) []

/-- One line step of the vmm stanza machine: blank lines close a stanza that
has a truthy Slot; other lines contribute key/value pairs. -/
def vmmStep (st : List (List (String × String)) × List (String × String))
    (raw : String) : List (List (String × String)) × List (String × String) :=
  let line := pyRstrip raw
  if line = "" then
    if pyGetS st.2 "Slot" ≠ "" then (st.1 ++ [st.2], []) else (st.1, [])
  else match kvMatch line with
    | some (k, v) => (st.1, dictSet st.2 (pyStrip k) (pyStrip v))
    | none => st

/-- Bracketed-id post-processing of one vmm device record. -/
def vmmPost (dev : List (String × String)) : List (String × String) :=
  let m_v := searchBrHex (pyGetS dev "Vendor")
  let m_d := searchBrHex (pyGetS dev "Device")
  let dev := match m_v with
    | some h => if pyGetS dev "VendorId" = "" then dictSet dev "VendorId" (strLower h) else dev
    | none => dev
  match m_d with
  | some h => if pyGetS dev "DeviceId" = "" then dictSet dev "DeviceId" (strLower h) else dev
  | none => dev

/-- linux.py _parse_lspci_vmm (lines 52-88): lspci -Dvmmnnk stanzas to device
records; a stanza is kept only once it has a Slot key. -/
def _parse_lspci_vmm (output : String) : List (List (String × String)) :=
  if output = "" then []
  else
    let st := (pySplitlines output).foldl vmmStep ([], [])
    let devices := if pyGetS st.2 "Slot" ≠ "" then st.1 ++ [st.2] else st.1
    devices.map vmmPost

/-- Python links[cur][k] = v on the nested link dictionary. -/
def dictSetIn (links : List (String × List (String × String)))
    (k ik iv : String) : List (String × List (String × String)) :=
  dictSet links k (dictSet ((dictGet links k).getD []) ik iv)

/-- One line step of the lspci -vv scanner: address-anchored lines set the
current-slot context, LnkSta lines record speed and width under it. -/
def vvStep (st : List (String × List (String × String)) × Option String)
    (raw : String) : List (String × List (String × String)) × Option String :=
  let line := pyRstrip raw
  match matchVvSlot line with
  | some slot => (st.1, some slot)
  | none =>
    match st.2 with
    | none => st
    | some cur =>
      if strContains line "LnkSta:" then
        let sp := searchLnkSpeed line
        let wd := searchLnkWidth line
        let links := if (dictGet st.1 cur).isNone then dictSet st.1 cur [] else st.1
        let links := match sp with
          | some v => dictSetIn links cur "pcie_speed" (v ++ "GT/s")
          | none => links
        let links := match wd with
          | some v => dictSetIn links cur "pcie_width" v
          | none => links
        (links, st.2)
      else st

/-- linux.py _parse_lspci_vv_links (lines 91-119): map from slot (the
domain-less xx:xx.x form printed by lspci -vv) to pcie_speed / pcie_width. -/
def _parse_lspci_vv_links (output : String) : List (String × List (String × String)) :=
  if output = "" then []
  else ((pySplitlines output).foldl vvStep ([], none)).1

/-- Devices list extraction of _parse_nvme_list_json: a dict with a Devices
list, or a bare list, else nothing. -/
def nvmeDevices (data : Json) : List Json :=
  match data with
  | Json.obj kvs =>
    match dictGet kvs "Devices" with
    | some (Json.arr xs) => xs
    | _ => []
  | Json.arr xs => xs
  | _ => []

/-- Size extraction of _parse_nvme_list_json: the first of the four keys
holding a number greater than zero (a Python bool is an int, True counts 1). -/
def nvmeSizeBytes (dev : Json) : Option ℚ :=
  let check := fun (k : String) =>
    match Json.getJ dev k with
    | Json.num q => if 0 < q then some q else none
    | Json.bool true => some 1
    | _ => none
  match check "PhysicalSize" with
  | some q => some q
  | none =>
    match check "Size" with
    | some q => some q
    | none =>
      match check "TotalSize" with
      | some q => some q
      | none => check "Capacity"

/-- One NVMe node of _parse_nvme_list_json; k is len(nodes) at build time. -/
def nvmeNode (dev : Json) (k : Nat) : Node :=
  let name := pyOr (pyOr (pyOr (pyOr (Json.getJ dev "Name") (Json.getJ dev "DevicePath"))
    (Json.getJ dev "Device")) (Json.getJ dev "SubsystemNQN")) (Json.getJ dev "Address")
  let model := pyOr (pyOr (pyOr (Json.getJ dev "ModelNumber") (Json.getJ dev "Model"))
    (Json.getJ dev "Model Number")) (Json.str "NVMe")
  let serial := pyOr (pyOr (Json.getJ dev "SerialNumber") (Json.getJ dev "Serial")) (Json.str "")
  let firmware := pyOr (pyOr (Json.getJ dev "Firmware") (Json.getJ dev "FirmwareRevision")) (Json.str "")
  let size_gb : Option ℚ := (nvmeSizeBytes dev).map (fun b => ratRound1 (b / (1024 : ℚ) ^ 3))
  ⟨if pyTruthy name then "nvme:" ++ pyStr name else "nvme:" ++ natRepr k,
   "nvme-device",
   if pyTruthy model then pyStr model else pyStr (pyOr name (Json.str "NVMe")),
   [("model", pyStr model), ("serial", pyStr serial), ("firmware", pyStr firmware)]
     ++ (match size_gb with | some g => [("size_gb", fmt1 g)] | none => [])⟩

/-- linux.py _parse_nvme_list_json (lines 122-174): nvme list -o json to
nvme-device nodes, tolerant to several nvme-cli schemas. -/
def _parse_nvme_list_json (output : String) : List Node :=
  if output = "" then []
  else match jsonLoads output with
    | none => []
    | some data =>
      (nvmeDevices data).foldl (fun nodes dev => nodes ++ [nvmeNode dev nodes.length]) []

/-- blockdevices extraction of _parse_lsblk_json.  Iterating a truthy
non-list would raise in Python; modelled as no devices. -/
def lsblkDevs (data : Json) : List Json :=
  let base := if pyTruthy data then data else Json.obj []
  match pyOr (Json.getJ base "blockdevices") (Json.arr []) with
  | Json.arr xs => xs
  | _ => []

/-- Python equality between a decoded value and a string literal. -/
def pyEqStr (j : Json) (s : String) : Bool :=
  match j with
  | Json.str t => t == s
  | _ => false

/-- One disk node of _parse_lsblk_json; none when the record is filtered out. -/
def lsblkNode (d : Json) : Option Node :=
  if !pyEqStr (pyOr (Json.getJ d "type") (Json.getJ d "type")) "disk" then none
  else
    let name := pyOr (Json.getJ d "name") (Json.str "disk")
    if strStarts (pyStr name) "nvme" then none
    else
      let model := pyOr (Json.getJ d "model") (Json.str "Disk")
      let size := pyOr (Json.getJ d "size") (Json.str "")
      let serial := pyOr (Json.getJ d "serial") (Json.str "")
      let tran := pyOr (Json.getJ d "tran") (Json.str "")
      let rota : Option Json := match Json.find? d "rota" with
        | some Json.null => none
        | r => r
      let media : Option String := match rota with
        | none => none
        | some v =>
          match pyInt? v with
          | some i => some (if i = 1 then "hdd" else "ssd")
          | none => none
      let props := [("model", pyStr model)]
      let props := if pyTruthy size then dictSet props "size" (pyStr size) else props
      let props := if pyTruthy serial then dictSet props "serial" (pyStr serial) else props
      let props := if pyTruthy tran then dictSet props "tran" (pyStr tran) else props
      let props := match media with
        | some m => dictSet props "media" m
        | none => props
      some ⟨"disk:" ++ pyStr name, "disk-device",
            pyStr model ++ " (" ++ pyStr name ++ ")", props⟩

/-- linux.py _parse_lsblk_json (lines 177-230): top-level disks from lsblk -J,
with every name beginning nvme excluded (handled by the NVMe parser). -/
def _parse_lsblk_json (output : String) : List Node :=
  if output = "" then []
  else match jsonLoads output with
    | none => []
    | some data =>
      (lsblkDevs data).foldl (fun nodes d =>
        match lsblkNode d with
        | some n => nodes ++ [n]
        | none => nodes) []

/-- linux.py _parse_ip_link_brief (lines 233-251): brief interface lines to
ifname/state/mac records; an @-suffixed name is truncated to its base. -/
def _parse_ip_link_brief (output : String) : List (List (String × String)) :=
  if output = "" then []
  else (pySplitlines output).foldl (fun acc raw =>
    let line := pyStrip raw
    match matchIpLink line with
    | none => acc
    | some (ifname_raw, state, mac) =>
      let ifname := pyBeforeFirst ifname_raw "@"
      acc ++ [[("ifname", ifname), ("state", state), ("mac", strLower mac)]]) []

/-- linux.py _parse_ethtool_i (lines 254-264): driver and bus-info fields. -/
def _parse_ethtool_i (output : String) : List (String × String) :=
  if output = "" then []
  else (pySplitlines output).foldl (fun info line =>
    if strStarts (strLower line) "driver:" then
      dictSet info "driver" (pyStrip (pyAfterFirst line ":"))
    else if strStarts (strLower line) "bus-info:" then
      dictSet info "bus_info" (pyStrip (pyAfterFirst line ":"))
    else info) []

/-- linux.py _parse_ethtool_speed (lines 267-283): link speed in Mbps; an
Mb/s match is taken first anywhere in the text, else a Gb/s match times
1000.  The int() conversions cannot fail on an all-digit group. -/
def _parse_ethtool_speed (output : String) : Option Nat :=
  if output = "" then none
  else match searchFrom speedMbAt output.data with
    | some n => some n
    | none =>
      match searchFrom speedGbAt output.data with
      | some n => some (n * 1000)
      | none => none

/-- First third of the lsusb line pattern: Bus(ws)+(digits)(ws)+. -/
def matchLsusb1 (cs : List Char) : Option (String × List Char) :=
  match expectLit "Bus".data cs with
  | none => none
  | some r1 =>
    match takeWs1 r1 with
    | none => none
    | some r2 =>
      match takeDigits1 r2 with
      | none => none
      | some (bus, r3) =>
        match takeWs1 r3 with
        | none => none
        | some r4 => some (bus, r4)

/-- Second third of the lsusb line pattern: Device(ws)+(digits):(ws)+ID(ws)+. -/
def matchLsusb2 (cs : List Char) : Option (String × List Char) :=
  match expectLit "Device".data cs with
  | none => none
  | some r1 =>
    match takeWs1 r1 with
    | none => none
    | some r2 =>
      match takeDigits1 r2 with
      | none => none
      | some (dev, r3) =>
        match r3 with
        | ':' :: r4 =>
          match takeWs1 r4 with
          | none => none
          | some r5 =>
            match expectLit "ID".data r5 with
            | none => none
            | some r6 =>
              match takeWs1 r6 with
              | none => none
              | some r7 => some (dev, r7)
        | _ => none

/-- Last third of the lsusb line pattern: (hex4):(hex4)(ws)+(.*)$. -/
def matchLsusb3 (cs : List Char) : Option (String × String × String) :=
  match takeHex4 cs with
  | none => none
  | some (vid, r1) =>
    match r1 with
    | ':' :: r2 =>
      match takeHex4 r2 with
      | none => none
      | some (pid, r3) =>
        match takeWs1 r3 with
        | none => none
        | some r4 => some (vid, pid, ⟨r4⟩)
    | _ => none

/-- Anchored line pattern of _parse_lsusb:
(caret)Bus(ws)+((backslash-d)+)(ws)+Device(ws)+((backslash-d)+):(ws)+ID(ws)+(hex4):(hex4)(ws)+(.*)$. -/
def matchLsusb (line : String) :
    Option (String × String × String × String × String) :=
  match matchLsusb1 line.data with
  | none => none
  | some (bus, r1) =>
    match matchLsusb2 r1 with
    | none => none
    | some (dev, r2) =>
      match matchLsusb3 r2 with
      | none => none
      | some (vid, pid, rest) => some (bus, dev, vid, pid, rest)

/-- linux.py _parse_lsusb (lines 286-309): Bus/Device/ID lines to usb-device
nodes. -/
def _parse_lsusb (output : String) : List Node :=
  (pySplitlines output).foldl (fun nodes line =>
    match matchLsusb (pyStrip line) with
    | none => nodes
    | some (bus, dev, vid, pid, rest) =>
      nodes ++ [⟨"usb:" ++ bus ++ "-" ++ dev, "usb-device", pyStrip rest,
                 [("bus", bus), ("device", dev),
                  ("vendor_id", strLower vid), ("product_id", strLower pid)]⟩]) []

/-- linux.py _parse_cpuinfo_current_mhz (lines 402-408). -/
def _parse_cpuinfo_current_mhz (output : String) : Option String :=
  if output = "" then none
  else searchMultiline cpuMhzAt output.data

/-- Truthiness of an optional string (Python None or str). -/
def truthyOS (o : Option String) : Bool :=
  match o with
  | some s => s != ""
  | none => false

/-- linux.py _parse_dmidecode_processor (lines 411-427): (current, max) MHz;
the loop breaks once both are set, so later lines cannot overwrite them. -/
def _parse_dmidecode_processor (output : String) : Option String × Option String :=
  if output = "" then (none, none)
  else (pySplitlines output).foldl (fun st raw =>
    if truthyOS st.1 && truthyOS st.2 then st
    else
      let line := pyStrip raw
      let cur := match matchCurSpeed line with
        | some v => some v
        | none => st.1
      let mx := match matchMaxSpeed line with
        | some v => some v
        | none => st.2
      (cur, mx)) (none, none)

/-! ### _parse_lscpu_json -/

/-- Recursive flattening walk of _parse_lscpu_json over the decoded lscpu
field list.  The fuel only bounds the recursion depth of the embedding; any
fuel at least sizeOf the data is adequate.  none models a Python exception
(a non-dict item, or truthy non-list children), which the surrounding
try/except turns into an empty parser result. -/
def lscpuWalkItems : Nat → List Json → List (String × Json) → Option (List (String × Json))
  | 0, _, _ => none
  | Nat.succ _, [], acc => some acc
  | Nat.succ fuel, item :: rest, acc =>
    match item with
    | Json.obj _ =>
      let field := pyStripChars [':', ' '] (pyStr (Json.getJD item "field" (Json.str "")))
      let value := Json.getJ item "data"
      let acc2 := if field ≠ "" then dictSet acc field value else acc
      let children := Json.getJ item "children"
      let afterChild : Option (List (String × Json)) :=
        if pyTruthy children then
          match children with
          | Json.arr xs => lscpuWalkItems fuel xs acc2
          | _ => none
        else some acc2
      match afterChild with
      | none => none
      | some acc3 => lscpuWalkItems fuel rest acc3
    | _ => none

def lscpuWalk (fuel : Nat) (items : Json) (acc : List (String × Json)) :
    Option (List (String × Json)) :=
  match items with
  | Json.arr xs => lscpuWalkItems fuel xs acc
  | _ => if pyTruthy items then none else some acc

/-- clean_mhz of _parse_lscpu_json: falsy or a literal dash means absent,
anything else is str()-ed. -/
def clean_mhz (v : Json) : Json :=
  if !pyTruthy v then Json.null
  else match v with
    | Json.str s => if pyStrip s = "-" then Json.null else Json.str s
    | v => Json.str (pyStr v)

/-- Conditional property spread of the lscpu node builder. -/
def propIf (k : String) (v : Json) : List (String × String) :=
  if pyTruthy v then [(k, pyStr v)] else []

/-- Lookup with default in the flattened entries map (entries.get(k, d)). -/
def entGetD (entries : List (String × Json)) (k : String) (d : Json) : Json :=
  (dictGet entries k).getD d

/-- Lookup in the flattened entries map (entries.get(k), absent is None). -/
def entGet (entries : List (String × Json)) (k : String) : Json :=
  entGetD entries k Json.null

/-- base_mhz derivation of _parse_lscpu_json: the dmidecode max reading is
preferred over its current reading. -/
def lscpuBaseMhz (which_dmidecode : Bool) (dmi_processor_out : String) : Json :=
  if which_dmidecode then
    let dmi := _parse_dmidecode_processor dmi_processor_out
    match (match dmi.2 with
           | some s => if s ≠ "" then some s else dmi.1
           | none => dmi.1) with
    | some s => Json.str s
    | none => Json.null
  else Json.null

/-- The conditionally-present cpu properties, in the order of the source
dict literal, paired with the raw values whose truthiness gates them. -/
def lscpuOptPairs (entries : List (String × Json)) (base_mhz : Json) :
    List (String × Json) :=
  [("vendor_id", pyOr (pyOr (entGet entries "Vendor ID") (entGet entries "Vendor ID:"))
      (entGet entries "Vendor")),
   ("family", entGet entries "CPU family"),
   ("model", entGet entries "Model"),
   ("stepping", entGet entries "Stepping"),
   ("min_mhz", clean_mhz (pyOr (entGet entries "CPU min MHz") (entGet entries "CPU min MHz:"))),
   ("max_mhz", clean_mhz (pyOr (entGet entries "CPU max MHz") (entGet entries "CPU max MHz:"))),
   ("base_mhz", base_mhz),
   ("l1d_cache", entGet entries "L1d cache"),
   ("l1i_cache", entGet entries "L1i cache"),
   ("l2_cache", entGet entries "L2 cache"),
   ("l3_cache", entGet entries "L3 cache"),
   ("l1d_total", entGet entries "L1d"),
   ("l1i_total", entGet entries "L1i"),
   ("l2_total", entGet entries "L2"),
   ("address_sizes", entGet entries "Address sizes"),
   ("virtualization", entGet entries "Virtualization"),
   ("hypervisor", entGet entries "Hypervisor vendor")]

/-- Node construction of _parse_lscpu_json from the flattened entries map,
including the embedded dmidecode call deriving base_mhz. -/
def lscpuNode (entries : List (String × Json)) (which_dmidecode : Bool)
    (dmi_processor_out : String) : Node :=
  ⟨"cpu:0", "cpu", pyStr (entGetD entries "Model name" (Json.str "CPU")),
   [("sockets", pyStr (entGetD entries "Socket(s)" (Json.str "1"))),
    ("cores_per_socket", pyStr (entGetD entries "Core(s) per socket" (Json.str "?"))),
    ("threads_per_core", pyStr (entGetD entries "Thread(s) per core" (Json.str "?")))]
     ++ (lscpuOptPairs entries (lscpuBaseMhz which_dmidecode dmi_processor_out)).foldr
          (fun p acc => propIf p.1 p.2 ++ acc) []⟩

/-- linux.py _parse_lscpu_json (lines 312-399).  Besides its text input the
source reads the host inside the function: _which("dmidecode") and a
dmidecode -t processor run; those become the two extra parameters. -/
def _parse_lscpu_json (output : String) (which_dmidecode : Bool)
    (dmi_processor_out : String) : List Node :=
  if output = "" then []
  else match jsonLoads output with
    | none => []
    | some data =>
      match data with
      | Json.obj kvs =>
        if (dictGet kvs "lscpu").isSome then
          match lscpuWalk (jsonSize data) (Json.getJ data "lscpu") [] with
          | none => []
          | some entries => [lscpuNode entries which_dmidecode dmi_processor_out]
        else []
      | _ => []

/-! ### _collect_numa_nodes -/

/-- MemTotal extraction of _collect_numa_nodes from one node meminfo file:
the first line starting Node and containing MemTotal is scanned token by
token; each MemTotal: token followed by a float sets the result. -/
def numaMemTotal (content : String) : String :=
  match (pySplitlines content).find?
      (fun line => strStarts line "Node" && strContains line "MemTotal") with
  | none => ""
  | some line =>
    let parts := pySplitWs line
    parts.enum.foldl (fun acc p =>
      if p.2 = "MemTotal:" && p.1 + 1 < parts.length then
        match pyFloat? (parts.getD (p.1 + 1) "") with
        | some kb => fmt1 (kb / 1024 / 1024)
        | none => acc
      else acc) ""

/-- One numa-node node from one sysfs node directory. -/
def numaNode (d : NumaDir) : Node :=
  let suffix : String := ⟨d.name.data.drop 4⟩
  let cpulist := match d.cpulist with
    | some s => pyStrip s
    | none => ""
  let mem_total_gb := match d.meminfo with
    | some content => numaMemTotal content
    | none => ""
  ⟨"numa:" ++ suffix, "numa-node", "NUMA " ++ suffix,
   [("cpus", cpulist)] ++ (if mem_total_gb ≠ "" then [("mem_total_gb", mem_total_gb)] else [])⟩

def insertNumaDir (d : NumaDir) : List NumaDir → List NumaDir
  | [] => [d]
  | e :: rest => if strLeB d.name e.name then d :: e :: rest else e :: insertNumaDir d rest

/-- Python sorted(os.listdir(base)) over the directory records. -/
def sortNumaDirs (l : List NumaDir) : List NumaDir :=
  l.foldr insertNumaDir []

/-- linux.py _collect_numa_nodes (lines 430-475): sorted node* directories
under /sys/devices/system/node to numa-node nodes. -/
def _collect_numa_nodes (env : Env) : List Node :=
  if !env.sysfs_node_isdir then []
  else ((sortNumaDirs env.sysfs_node_dirs).filter
          (fun d => strStarts d.name "node")).map numaNode

/-- linux.py _parse_meminfo_total_kb (lines 478-489). -/
def _parse_meminfo_total_kb (output : String) : Option Nat :=
  if output = "" then none
  else (pySplitlines output).findSome? (fun line =>
    if strStarts line "MemTotal:" then
      let parts := pySplitWs line
      if parts.length ≥ 2 && pyIsDigit (parts.getD 1 "") then
        some (digitsToNat (parts.getD 1 "").data)
      else none
    else none)

/-! ### _parse_dmidecode_memory -/

/-- One line step of the dmidecode -t memory stanza machine. -/
def dmiMemStep (st : List (List (String × String)) × List (String × String))
    (raw : String) : List (List (String × String)) × List (String × String) :=
  let line := pyRstrip raw
  if line = "" then
    (if dictGet st.2 "__kind__" == some "Memory Device" then st.1 ++ [st.2] else st.1, [])
  else if pyStrip line = "Memory Device" || pyStrip line = "Physical Memory Array" then
    (if dictGet st.2 "__kind__" == some "Memory Device" then st.1 ++ [st.2] else st.1,
     [("__kind__", pyStrip line)])
  else
    match kvMatch line with
    | some (k, v) => (st.1, dictSet st.2 (pyStrip k) (pyStrip v))
    | none => st

/-- Speed selection of the DIMM builder: configured speed, then configured
clock, then reported, then maximum; placeholder words count as absent. -/
def dimmSpeed (dev : List (String × String)) : String :=
  let speed0 := pyOrS (pyOrS (pyOrS (pyOrS (pyGetS dev "Configured Memory Speed")
    (pyGetS dev "Configured Clock Speed")) (pyGetS dev "Speed"))
    (pyGetS dev "Maximum Speed")) ""
  let low := strLower (pyStrip speed0)
  if speed0 ≠ "" && (low = "unknown" || low = "unconfigured" || low = "n/a") then ""
  else speed0

/-- Size normalisation of the DIMM builder: a GB match wins over an MB
match; the float() of an all-digit group cannot fail. -/
def dimmSizeGB (size : String) : Option ℚ :=
  match searchSizeGB size with
  | some g => some (g : ℚ)
  | none =>
    match searchSizeMB size with
    | some m => some ((m : ℚ) / 1024)
    | none => none

/-- One dimm node; idx counts previously emitted DIMM nodes. -/
def dimmNode (dev : List (String × String)) (idx : Nat) : Node :=
  let size := dictGetD dev "Size" ""
  let locator := pyOrS (pyOrS (pyGetS dev "Locator") (pyGetS dev "Bank Locator"))
    ("DIMM-" ++ natRepr idx)
  let speed := dimmSpeed dev
  ⟨"dimm:" ++ locator, "dimm", "DIMM " ++ locator,
   [("slot", locator),
    ("size_gb", match dimmSizeGB size with | some q => fmt1 q | none => size),
    ("type", dictGetD dev "Type" "?")]
     ++ (if speed ≠ "" then [("speed", speed)] else [])
     ++ [("manufacturer", dictGetD dev "Manufacturer" ""),
         ("part_number", dictGetD dev "Part Number" ""),
         ("serial", dictGetD dev "Serial Number" "")]⟩

/-- linux.py _parse_dmidecode_memory (lines 492-573): dmidecode -t memory
stanzas to dimm nodes; stanzas with no module installed are skipped. -/
def _parse_dmidecode_memory (output : String) : List Node :=
  if output = "" then []
  else
    let st := (pySplitlines output).foldl dmiMemStep ([], [])
    let devices :=
      if dictGet st.2 "__kind__" == some "Memory Device" then st.1 ++ [st.2] else st.1
    (devices.foldl (fun (acc : List Node × Nat) dev =>
      let size := dictGetD dev "Size" ""
      if size = "" || strStarts (strLower size) "no module" then acc
      else (acc.1 ++ [dimmNode dev acc.2], acc.2 + 1)) ([], 0)).1

/-! ### _parse_rocm_smi_json (nested in collect_linux_hardware_graph) -/

/-- data.items() of the rocm parser: dict items, or an enumerated list. -/
def rocmItems (data : Json) : List (String × Json) :=
  match data with
  | Json.obj kvs => kvs
  | Json.arr xs => xs.enum.map (fun p => (natRepr p.1, p.2))
  | _ => []

/-- The flattening walk of the rocm parser: nested dicts become dotted keys,
leaves are str()-ed.  The fuel bounds the embedding recursion; any fuel at
least sizeOf the object is adequate. -/
def rocmWalk : Nat → String → List (String × Json) → List (String × String) →
    List (String × String)
  | 0, _, _, flat => flat
  | Nat.succ _, _, [], flat => flat
  | Nat.succ fuel, pre, (k, v) :: rest, flat =>
    let key := if pre = "" then k else pre ++ "." ++ k
    let flat2 := match v with
      | Json.obj kvs => rocmWalk fuel key kvs flat
      | _ => dictSet flat key (pyStr v)
    rocmWalk fuel pre rest flat2

/-- find_key of the rocm parser: scan the sorted keys; the first key whose
lower form contains all the substrings gives its value. -/
def rocmFindKey (flat : List (String × String)) (substrs : List String) : Option String :=
  (pySortedStr (flat.map Prod.fst)).findSome? (fun k =>
    if substrs.all (fun s => strContains (strLower k) s) then dictGet flat k else none)

/-- An or-chain of find_key calls ending in an empty string. -/
def fkChain (flat : List (String × String)) : List (List String) → String
  | [] => ""
  | subs :: rest => pyOrS ((rocmFindKey flat subs).getD "") (fkChain flat rest)

/-- vram_mb derivation: digits are pulled out of the raw value; very large
values are taken as bytes, others as kB.  Python round() is modelled with
round-half-up. -/
def rocmVramMb (vram_b : String) : Option String :=
  if vram_b ≠ "" then
    match searchDigits vram_b with
    | some val =>
      if val > 1000000000 then
        some (natRepr (round ((val : ℚ) / (1024 * 1024)) : ℤ).toNat)
      else some (natRepr (round ((val : ℚ) / 1024) : ℤ).toNat)
    | none => none
  else none

/-- pcie_speed derivation: a 0.1 GT/s integer reading becomes a one-decimal
GT/s string. -/
def rocmPcieSpeed (raw : String) : Option String :=
  if raw ≠ "" then
    match searchDigits raw with
    | some m => some (fmt1 ((m : ℚ) / 10) ++ "GT/s")
    | none => none
  else none

/-- The conditionally-present keys of one rocm card record. -/
def rocmOptProps (flat : List (String × String)) : List (String × String) :=
  let power_cap := fkChain flat [["max graphics package power", "w"]]
  let vram_mb := rocmVramMb (fkChain flat [["vram", "total"], ["memory", "total"]])
  let pcie_width := fkChain flat [["pcie_link_width", "lanes"]]
  let pcie_speed := rocmPcieSpeed (fkChain flat [["pcie_link_speed", "gt/s"]])
  let util := fkChain flat [["gpu use", "%"], ["average_gfx_activity", "%"]]
  (if power_cap ≠ "" then [("power_cap_w", power_cap)] else [])
    ++ (match vram_mb with | some v => [("vram_mb", v)] | none => [])
    ++ (if pcie_width ≠ "" && !strStarts pcie_width "x" then [("pcie_width", "x" ++ pcie_width)]
        else if pcie_width ≠ "" then [("pcie_width", pcie_width)] else [])
    ++ (match pcie_speed with | some v => [("pcie_speed", v)] | none => [])
    ++ (if util ≠ "" then [("utilization_gpu_pct", util)] else [])

/-- One rocm card record, from the flattened key map. -/
def rocmRecord (flat : List (String × String)) : List (String × String) :=
  [("bdf", fkChain flat [["pci bus"], ["pcie", "bus"], ["bdf"], ["pci", "bus"]]),
   ("name", fkChain flat [["device name"], ["card series"], ["product"], ["name"],
      ["card model"]]),
   ("driver", fkChain flat [["driver version"]]),
   ("temperature_c", fkChain flat [["temperature_hotspot", "c"],
      ["temperature (sensor junction)", "c"], ["temperature (sensor memory)", "c"],
      ["temperature", "c"]]),
   ("power_w", fkChain flat [["current socket graphics package power", "w"],
      ["current_socket_power", "w"], ["socket graphics package power", "w"]])]
    ++ rocmOptProps flat

/-- linux.py _parse_rocm_smi_json (lines 730-842, nested in the assembler):
rocm-smi JSON to per-card string records; non-dict cards are skipped. -/
def _parse_rocm_smi_json (output : String) : List (List (String × String)) :=
  if output = "" then []
  else match jsonLoads output with
    | none => []
    | some data =>
      (rocmItems data).foldl (fun devs p =>
        match p.2 with
        | Json.obj kvs => devs ++ [rocmRecord (rocmWalk (jsonSize p.2) "" kvs [])]
        | _ => devs) []

/-! ## The graph assembler (collect_linux_hardware_graph, lines 576-928)

Every node append in the source is immediately followed by the append of
its one contains edge, with the edge id e:parent->child; addChild captures
that shared pattern.  The two GPU enrichment passes mutate node objects that
are also reachable through the created_pci_nodes dictionary; the embedding
keys that dictionary by the index of the node in the node list and patches
in place, which is exactly the aliasing the source exploits. -/

/-- The single contains edge appended together with a node. -/
def mkEdge (parent lbl : String) (n : Node) : Edge :=
  ⟨"e:" ++ parent ++ "->" ++ n.id, parent, n.id, "contains", lbl⟩

def addChild (g : Graph) (parent : String) (lbl : String) (n : Node) : Graph :=
  ⟨g.nodes ++ [n], g.edges ++ [mkEdge parent lbl n]⟩

/-- A source for-loop appending each node of a list with its edge. -/
def addChildren (g : Graph) (parent lbl : String) (ns : List Node) : Graph :=
  ns.foldl (fun g n => addChild g parent lbl n) g

/-- The root node (lines 581-587). -/
def rootNode (env : Env) : Node :=
  ⟨"root", "system", env.uname_nodename, [("os", env.platform_platform)]⟩

/-- CPU stage (lines 590-600): lscpu node under root, NUMA nodes under the
first CPU node when CPU data exists. -/
def stageCPU (env : Env) (g : Graph) : Graph :=
  if env.which_lscpu then
    let cpu_nodes := _parse_lscpu_json env.lscpu_out env.which_dmidecode env.dmi_processor_out
    let g1 := addChildren g "root" "contains" cpu_nodes
    match cpu_nodes with
    | [] => g1
    | c0 :: _ => addChildren g1 c0.id "numa" (_collect_numa_nodes env)
  else g

/-- total_gb derivation (lines 608-618): sum of the DIMM size_gb strings
when they all parse back as floats, else the /proc/meminfo total. -/
def memTotalGb (env : Env) (dimm_nodes : List Node) : Option ℚ :=
  let fromDimms : Option ℚ :=
    if dimm_nodes.isEmpty then none
    else
      let sizes := dimm_nodes.filterMap (fun n =>
        let s := pyGetS n.properties "size_gb"
        if s ≠ "" then some s else none)
      match sizes.mapM pyFloat? with
      | some qs => some qs.sum
      | none => none
  match fromDimms with
  | some t => some t
  | none =>
    match _parse_meminfo_total_kb env.meminfo_out with
    | some kb => if kb ≠ 0 then some (ratRound1 ((kb : ℚ) / 1024 / 1024)) else none
    | none => none

/-- The DIMM list of the memory stage (lines 605-607): dmidecode gated. -/
def dimmNodesOf (env : Env) : List Node :=
  if env.which_dmidecode then _parse_dmidecode_memory env.dmi_memory_out else []

/-- The memory summary node (lines 620-625). -/
def memRootNode (env : Env) : Node :=
  ⟨"bus:memory", "memory", "Memory",
   [("total_gb", match memTotalGb env (dimmNodesOf env) with | some t => fmt1 t | none => "")]⟩

/-- Memory stage (lines 602-630): the memory summary node is appended
unconditionally; DIMM nodes follow when dmidecode is available. -/
def stageMemory (env : Env) (g : Graph) : Graph :=
  addChildren (addChild g "root" "contains" (memRootNode env)) "bus:memory" "dimm"
    (dimmNodesOf env)

def gpuClassKeywords : List String :=
  ["vga", "3d controller", "display controller", "processing accelerators",
   "accelerator", "co-processor"]

/-- One PCI device node (lines 645-672): class/address properties, bracketed
ids, vv link data looked up by the vmm slot, GPU keyword classification. -/
def pciDevNode (links : List (String × List (String × String)))
    (dev : List (String × String)) : Node :=
  let slot := pyOrS (pyGetS dev "Slot") "?"
  let cls := pyOrS (pyOrS (pyGetS dev "Class") (pyGetS dev "ClassName")) ""
  let vendor := pyBeforeFirst (dictGetD dev "Vendor" "") " ["
  let device := pyBeforeFirst (dictGetD dev "Device" "") " ["
  let props := [("class", cls), ("address", slot)]
  let props := if dictGetD dev "VendorId" "" ≠ "" then
      dictSet props "vendor_id" (dictGetD dev "VendorId" "") else props
  let props := if dictGetD dev "DeviceId" "" ≠ "" then
      dictSet props "device_id" (dictGetD dev "DeviceId" "") else props
  let props := match dictGet links slot with
    | some l => if !l.isEmpty then dictUpdate props l else props
    | none => props
  ⟨"pci:" ++ slot,
   if gpuClassKeywords.any (fun k => strContains (strLower cls) k) then "gpu-device"
   else "pci-device",
   pyOrS (pyStrip (vendor ++ " " ++ device)) slot,
   props⟩

/-- One step of the PCI build loop (lines 645-678): append the device node
and its edge, then register the node index in created_pci_nodes under the
full slot and, when it matches, under the 7-character slot tail. -/
def pciStep (links : List (String × List (String × String)))
    (st : Graph × List (String × Nat)) (dev : List (String × String)) :
    Graph × List (String × Nat) :=
  let slot := pyOrS (pyGetS dev "Slot") "?"
  let idx := st.1.nodes.length
  let g2 := addChild st.1 "bus:pci" "device" (pciDevNode links dev)
  let created := (slot, idx) :: st.2
  let created := match bdfTail slot with
    | some t => (t, idx) :: created
    | none => created
  (g2, created)

def stagePCIbuild (env : Env) (g : Graph) : Graph × List (String × Nat) :=
  let vmm := _parse_lspci_vmm env.lspci_vmm_out
  let links := _parse_lspci_vv_links env.lspci_vv_out
  let g1 := addChild g "root" "contains" ⟨"bus:pci", "bus", "PCI Bus", []⟩
  vmm.foldl (pciStep links) (g1, [])

/-- Patch one node in place by index; out-of-range leaves the list as is
(the created indices are always in range). -/
def patchAt (nodes : List Node) (i : Nat) (f : Node → Node) : List Node :=
  match nodes.get? i with
  | some n => nodes.set i (f n)
  | none => nodes

/-- The nvidia-smi mutation of one node (lines 705-727). -/
def nvidiaPatch (parts : List String) (n : Node) : Node :=
  let p := n.properties
  let p := if parts.getD 2 "" ≠ "" then dictSet p "driver" (parts.getD 2 "") else p
  let p := if parts.getD 3 "" ≠ "" then dictSet p "vram_mb" (parts.getD 3 "") else p
  let p := if parts.getD 4 "" ≠ "" then dictSet p "temperature_c" (parts.getD 4 "") else p
  let p := if parts.getD 5 "" ≠ "" then dictSet p "power_w" (parts.getD 5 "") else p
  let p := if parts.getD 6 "" ≠ "" then dictSet p "power_cap_w" (parts.getD 6 "") else p
  let p := if parts.getD 7 "" ≠ "" then dictSet p "utilization_gpu_pct" (parts.getD 7 "") else p
  ⟨n.id, "gpu-device", if parts.getD 1 "" ≠ "" then parts.getD 1 "" else n.label, p⟩

/-- Node lookup of the nvidia pass (lines 693-700): tail key first, then the
full 4-segment key. -/
def nvidiaLookup (created : List (String × Nat)) (bus_id : String) : Option Nat :=
  let tailHit := match bdfTail bus_id with
    | some t => dictGet created t
    | none => none
  match tailHit with
  | some i => some i
  | none =>
    match searchBdfFull bus_id with
    | some fkey => dictGet created fkey
    | none => none

/-- One csv line of the nvidia-smi enrichment pass. -/
def nvidiaStep (created : List (String × Nat)) (nodes : List Node)
    (line : String) : List Node :=
  let parts := (pySplitOn line ",").map pyStrip
  if parts.length < 2 then nodes
  else
    match nvidiaLookup created (parts.getD 0 "") with
    | none => nodes
    | some i => patchAt nodes i (nvidiaPatch parts)

/-- The nvidia-smi enrichment pass (lines 687-727) over the node list. -/
def nvidiaApply (out : String) (created : List (String × Nat))
    (nodes : List Node) : List Node :=
  (pySplitlines out).foldl (nvidiaStep created) nodes

/-- The rocm mutation of one node (lines 856-862). -/
def rocmPatch (dev : List (String × String)) (n : Node) : Node :=
  let p := ["driver", "vram_mb", "temperature_c", "power_w"].foldl (fun p k =>
    if pyGetS dev k ≠ "" then dictSet p k (pyGetS dev k) else p) n.properties
  ⟨n.id, "gpu-device", if pyGetS dev "name" ≠ "" then pyGetS dev "name" else n.label, p⟩

/-- One card record of the rocm enrichment pass. -/
def rocmStep (created : List (String × Nat)) (nodes : List Node)
    (dev : List (String × String)) : List Node :=
  match bdfTail (pyGetS dev "bdf") with
  | none => nodes
  | some slot_key =>
    match (dictGet created slot_key).orElse (fun _ => dictGet created (pyGetS dev "bdf")) with
    | none => nodes
    | some i => patchAt nodes i (rocmPatch dev)

/-- The rocm enrichment pass (lines 844-862) over the node list. -/
def rocmApply (out : String) (created : List (String × Nat))
    (nodes : List Node) : List Node :=
  (_parse_rocm_smi_json out).foldl (rocmStep created) nodes

/-- The two enrichment passes (lines 680-862) applied to the node list: the
nvidia pass runs when nvidia-smi is available, created_pci_nodes is nonempty
and the query output is nonempty; the rocm pass when rocm-smi is available
and created_pci_nodes is nonempty. -/
def pciEnrich (env : Env) (created : List (String × Nat)) (ns : List Node) : List Node :=
  let ns1 :=
    if env.which_nvidia_smi && !created.isEmpty && env.nvidia_smi_out ≠ "" then
      nvidiaApply env.nvidia_smi_out created ns
    else ns
  if env.which_rocm_smi && !created.isEmpty then
    rocmApply (pyOrS env.rocm_smi_out1 env.rocm_smi_out2) created ns1
  else ns1

/-- PCI stage (lines 632-862): bus:pci and its devices, then the nvidia and
rocm enrichment passes over the accumulated node list. -/
def stagePCI (env : Env) (g : Graph) : Graph :=
  if env.which_lspci then
    let built := stagePCIbuild env g
    ⟨pciEnrich env built.2 built.1.nodes, built.1.edges⟩
  else g

/-- USB stage (lines 864-877). -/
def stageUSB (env : Env) (g : Graph) : Graph :=
  if env.which_lsusb then
    addChildren (addChild g "root" "contains" ⟨"bus:usb", "bus", "USB Bus", []⟩)
      "bus:usb" "device" (_parse_lsusb env.lsusb_out)
  else g

/-- Storage stage (lines 879-901): bus:storage is appended unconditionally;
NVMe and generic-disk children are each gated by their tool. -/
def stageStorage (env : Env) (g : Graph) : Graph :=
  let g1 := addChild g "root" "contains" ⟨"bus:storage", "bus", "Storage", []⟩
  let g2 := if env.which_nvme then
      addChildren g1 "bus:storage" "nvme" (_parse_nvme_list_json env.nvme_out)
    else g1
  if env.which_lsblk then
    addChildren g2 "bus:storage" "disk" (_parse_lsblk_json env.lsblk_out)
  else g2

/-- One net-interface node (lines 909-924), with its ethtool enrichment. -/
def netIfaceNode (env : Env) (iface : List (String × String)) : Node :=
  let ifname? := dictGet iface "ifname"
  let ifname := ifname?.getD "None"
  let props := iface.filter (fun p => p.1 ≠ "ifname")
  let props := match ifname? with
    | some nm =>
      if env.which_ethtool && nm ≠ "" then
        let props := dictUpdate props (_parse_ethtool_i (env.ethtool_i_out nm))
        match _parse_ethtool_speed (env.ethtool_out nm) with
        | some n => if n ≠ 0 then dictSet props "speed_mbps" (natRepr n) else props
        | none => props
      else props
    | none => props
  ⟨"net:" ++ ifname, "net-interface", ifname, props⟩

/-- Network stage (lines 903-926). -/
def stageNet (env : Env) (g : Graph) : Graph :=
  if env.which_ip then
    addChildren (addChild g "root" "contains" ⟨"bus:net", "bus", "Network", []⟩)
      "bus:net" "iface" ((_parse_ip_link_brief env.ip_out).map (netIfaceNode env))
  else g

/-- linux.py collect_linux_hardware_graph (lines 576-928). -/
def collect_linux_hardware_graph (env : Env) : Graph :=
  stageNet env (stageStorage env (stageUSB env (stagePCI env
    (stageMemory env (stageCPU env ⟨[rootNode env], []⟩)))))

/-- A baseline environment: no tool available, every output empty.  Concrete
environments below are built from it by structure update. -/
def env0 : Env :=
  ⟨"host", "Linux", false, "", false, "", "", false, [], "",
   false, "", "", false, "", false, "", "", false, "", false, "",
   false, "", false, "", false, fun _ => "", fun _ => ""⟩

/-- linux.py generate_demo_graph (lines 931-955): the fixed demo graph. -/
def generate_demo_graph : Graph :=
  ⟨[⟨"root", "system", "Demo System", [("os", "Linux")]⟩,
    ⟨"cpu:0", "cpu", "Intel(R) Xeon(R) CPU",
     [("sockets", "1"), ("cores_per_socket", "8"), ("threads_per_core", "2")]⟩,
    ⟨"bus:memory", "memory", "Memory", [("total_gb", "32.0")]⟩,
    ⟨"dimm:A1", "dimm", "DIMM A1",
     [("slot", "A1"), ("size_gb", "16.0"), ("type", "DDR4"), ("speed", "2666 MT/s")]⟩,
    ⟨"dimm:B1", "dimm", "DIMM B1",
     [("slot", "B1"), ("size_gb", "16.0"), ("type", "DDR4"), ("speed", "2666 MT/s")]⟩,
    ⟨"bus:pci", "bus", "PCI Bus", []⟩,
    ⟨"pci:00:00.0", "pci-device", "Intel Corporation 440FX - 82441FX PMC [Natoma]",
     [("class", "Host bridge"), ("address", "00:00.0")]⟩,
    ⟨"pci:00:01.0", "pci-device", "Intel Corporation 82371SB PIIX3 ISA [Natoma/Triton II]",
     [("class", "ISA bridge"), ("address", "00:01.0")]⟩,
    ⟨"bus:usb", "bus", "USB Bus", []⟩,
    ⟨"usb:001-002", "usb-device", "Intel Corp. Integrated Hub",
     [("bus", "001"), ("device", "002"), ("vendor_id", "8087"), ("product_id", "0024")]⟩],
   [⟨"e:root->cpu:0", "root", "cpu:0", "contains", "contains"⟩,
    ⟨"e:root->bus:memory", "root", "bus:memory", "contains", "contains"⟩,
    ⟨"e:bus:memory->dimm:A1", "bus:memory", "dimm:A1", "contains", "dimm"⟩,
    ⟨"e:bus:memory->dimm:B1", "bus:memory", "dimm:B1", "contains", "dimm"⟩,
    ⟨"e:root->bus:pci", "root", "bus:pci", "contains", "contains"⟩,
    ⟨"e:bus:pci->pci:00:00.0", "bus:pci", "pci:00:00.0", "contains", "device"⟩,
    ⟨"e:bus:pci->pci:00:01.0", "bus:pci", "pci:00:01.0", "contains", "device"⟩,
    ⟨"e:root->bus:usb", "root", "bus:usb", "contains", "contains"⟩,
    ⟨"e:bus:usb->usb:001-002", "bus:usb", "usb:001-002", "contains", "device"⟩]⟩

/-! ## Infrastructure: graph decomposition

The assembler only ever appends node/edge pairs through addChild and, in the
PCI stage, patches previously appended nodes in place.  The lemmas in this
section decompose the assembled graph into per-stage segments that are
functions of the environment alone. -/

def nodeIds (g : Graph) : List String :=
  g.nodes.map Node.id

theorem addChildren_eq (p l : String) (ns : List Node) : ∀ (g : Graph),
    addChildren g p l ns = ⟨g.nodes ++ ns, g.edges ++ ns.map (mkEdge p l)⟩ := by
  induction ns with
  | nil => intro g; simp [addChildren]
  | cons n ns ih =>
    intro g
    show addChildren (addChild g p l n) p l ns = _
    rw [ih]
    simp [addChild]

/-- The CPU node list of the CPU stage (gated by lscpu availability). -/
def cpuNodesOf (env : Env) : List Node :=
  if env.which_lscpu then
    _parse_lscpu_json env.lscpu_out env.which_dmidecode env.dmi_processor_out
  else []

/-- The NUMA node list of the CPU stage (present only with CPU data). -/
def numaNodesOf (env : Env) : List Node :=
  match cpuNodesOf env with
  | [] => []
  | _ :: _ => _collect_numa_nodes env

/-- The id of cpu_nodes[0], the parent of the NUMA nodes. -/
def cpuHeadId (env : Env) : String :=
  match cpuNodesOf env with
  | [] => ""
  | c :: _ => c.id

def cpuSegNodes (env : Env) : List Node :=
  cpuNodesOf env ++ numaNodesOf env

def cpuSegEdges (env : Env) : List Edge :=
  (cpuNodesOf env).map (mkEdge "root" "contains")
    ++ (numaNodesOf env).map (mkEdge (cpuHeadId env) "numa")

theorem stageCPU_eq (env : Env) (g : Graph) :
    stageCPU env g = ⟨g.nodes ++ cpuSegNodes env, g.edges ++ cpuSegEdges env⟩ := by
  by_cases h : env.which_lscpu
  · simp only [stageCPU, h, if_true]
    rcases hc : _parse_lscpu_json env.lscpu_out env.which_dmidecode env.dmi_processor_out with
      _ | ⟨c, cs⟩ <;>
      simp [addChildren_eq, cpuSegNodes, cpuSegEdges, cpuNodesOf, numaNodesOf, cpuHeadId,
        h, hc]
  · simp [stageCPU, h, cpuSegNodes, cpuSegEdges, cpuNodesOf, numaNodesOf]

def memSegNodes (env : Env) : List Node :=
  memRootNode env :: dimmNodesOf env

def memSegEdges (env : Env) : List Edge :=
  mkEdge "root" "contains" (memRootNode env)
    :: (dimmNodesOf env).map (mkEdge "bus:memory" "dimm")

theorem stageMemory_eq (env : Env) (g : Graph) :
    stageMemory env g = ⟨g.nodes ++ memSegNodes env, g.edges ++ memSegEdges env⟩ := by
  simp [stageMemory, addChildren_eq, addChild, memSegNodes, memSegEdges]

def usbSegNodes (env : Env) : List Node :=
  if env.which_lsusb then
    ⟨"bus:usb", "bus", "USB Bus", []⟩ :: _parse_lsusb env.lsusb_out
  else []

def usbSegEdges (env : Env) : List Edge :=
  if env.which_lsusb then
    mkEdge "root" "contains" ⟨"bus:usb", "bus", "USB Bus", []⟩
      :: (_parse_lsusb env.lsusb_out).map (mkEdge "bus:usb" "device")
  else []

theorem stageUSB_eq (env : Env) (g : Graph) :
    stageUSB env g = ⟨g.nodes ++ usbSegNodes env, g.edges ++ usbSegEdges env⟩ := by
  by_cases h : env.which_lsusb <;>
    simp [stageUSB, h, addChildren_eq, addChild, usbSegNodes, usbSegEdges]

def nvmeNodesOf (env : Env) : List Node :=
  if env.which_nvme then _parse_nvme_list_json env.nvme_out else []

def diskNodesOf (env : Env) : List Node :=
  if env.which_lsblk then _parse_lsblk_json env.lsblk_out else []

def stoSegNodes (env : Env) : List Node :=
  ⟨"bus:storage", "bus", "Storage", []⟩ :: (nvmeNodesOf env ++ diskNodesOf env)

def stoSegEdges (env : Env) : List Edge :=
  mkEdge "root" "contains" ⟨"bus:storage", "bus", "Storage", []⟩
    :: ((nvmeNodesOf env).map (mkEdge "bus:storage" "nvme")
        ++ (diskNodesOf env).map (mkEdge "bus:storage" "disk"))

theorem stageStorage_eq (env : Env) (g : Graph) :
    stageStorage env g = ⟨g.nodes ++ stoSegNodes env, g.edges ++ stoSegEdges env⟩ := by
  by_cases hn : env.which_nvme <;> by_cases hb : env.which_lsblk <;>
    simp [stageStorage, hn, hb, addChildren_eq, addChild, stoSegNodes, stoSegEdges,
      nvmeNodesOf, diskNodesOf]

def netIfacesOf (env : Env) : List (List (String × String)) :=
  if env.which_ip then _parse_ip_link_brief env.ip_out else []

def netNodesOf (env : Env) : List Node :=
  (netIfacesOf env).map (netIfaceNode env)

def netSegNodes (env : Env) : List Node :=
  if env.which_ip then ⟨"bus:net", "bus", "Network", []⟩ :: netNodesOf env else []

def netSegEdges (env : Env) : List Edge :=
  if env.which_ip then
    mkEdge "root" "contains" ⟨"bus:net", "bus", "Network", []⟩
      :: (netNodesOf env).map (mkEdge "bus:net" "iface")
  else []

theorem stageNet_eq (env : Env) (g : Graph) :
    stageNet env g = ⟨g.nodes ++ netSegNodes env, g.edges ++ netSegEdges env⟩ := by
  by_cases h : env.which_ip <;>
    simp [stageNet, h, addChildren_eq, addChild, netSegNodes, netSegEdges, netNodesOf,
      netIfacesOf]

/-! ### Decomposition of the PCI stage

The PCI stage registers node indices into the full node list, so its
decomposition shifts those indices by the length of the accumulated list. -/

def shiftIdx (n : Nat) (c : List (String × Nat)) : List (String × Nat) :=
  c.map (fun p => (p.1, p.2 + n))

theorem dictGet_shiftIdx (n : Nat) (k : String) : ∀ (c : List (String × Nat)),
    dictGet (shiftIdx n c) k = (dictGet c k).map (· + n) := by
  intro c
  induction c with
  | nil => rfl
  | cons p c ih =>
    by_cases h : p.1 == k <;>
      simp [shiftIdx, dictGet, List.find?, h] <;>
      simpa [shiftIdx, dictGet] using ih

theorem shiftIdx_isEmpty (n : Nat) (c : List (String × Nat)) :
    (shiftIdx n c).isEmpty = c.isEmpty := by
  cases c <;> rfl

theorem nvidiaLookup_shiftIdx (n : Nat) (c : List (String × Nat)) (b : String) :
    nvidiaLookup (shiftIdx n c) b = (nvidiaLookup c b).map (· + n) := by
  unfold nvidiaLookup
  cases bdfTail b with
  | none =>
    cases searchBdfFull b with
    | none => simp
    | some fk => simp [dictGet_shiftIdx]
  | some t =>
    cases h : dictGet c t with
    | some i => simp [dictGet_shiftIdx, h]
    | none =>
      cases searchBdfFull b with
      | none => simp [dictGet_shiftIdx, h]
      | some fk => simp [dictGet_shiftIdx, h]

theorem patchAt_cons_succ (a : Node) (l : List Node) (m : Nat) (f : Node → Node) :
    patchAt (a :: l) (m + 1) f = a :: patchAt l m f := by
  unfold patchAt
  cases h : l[m]? <;> simp [List.get?_eq_getElem?, h]

theorem patchAt_append_right (ns : List Node) (j : Nat) (f : Node → Node) :
    ∀ (pre : List Node), patchAt (pre ++ ns) (j + pre.length) f = pre ++ patchAt ns j f := by
  intro pre
  induction pre with
  | nil => simp
  | cons a pre ih =>
    have : j + (a :: pre).length = (j + pre.length) + 1 := by
      simp [List.length_cons]; omega
    rw [List.cons_append, this, patchAt_cons_succ, ih]
    simp

theorem nvidiaStep_shift (c : List (String × Nat)) (pre ns : List Node) (line : String) :
    nvidiaStep (shiftIdx pre.length c) (pre ++ ns) line = pre ++ nvidiaStep c ns line := by
  unfold nvidiaStep
  set parts := (pySplitOn line ",").map pyStrip with hp
  by_cases h : parts.length < 2
  · simp [h]
  · simp only [h, if_false]
    rw [nvidiaLookup_shiftIdx]
    cases hl : nvidiaLookup c (parts.getD 0 "") with
    | none => simp [hl]
    | some j => simp [hl, patchAt_append_right]

theorem rocmStep_shift (c : List (String × Nat)) (pre ns : List Node)
    (dev : List (String × String)) :
    rocmStep (shiftIdx pre.length c) (pre ++ ns) dev = pre ++ rocmStep c ns dev := by
  unfold rocmStep
  cases h : bdfTail (pyGetS dev "bdf") with
  | none => simp [h]
  | some sk =>
    simp only [h]
    rw [dictGet_shiftIdx, dictGet_shiftIdx]
    cases h1 : dictGet c sk with
    | some j => simp [h1, Option.orElse, patchAt_append_right]
    | none =>
      cases h2 : dictGet c (pyGetS dev "bdf") with
      | none => simp [h1, h2, Option.orElse]
      | some j => simp [h1, h2, Option.orElse, patchAt_append_right]

theorem nvidiaApply_shift (out : String) (c : List (String × Nat)) (pre : List Node) :
    ∀ (ns : List Node),
      nvidiaApply out (shiftIdx pre.length c) (pre ++ ns) = pre ++ nvidiaApply out c ns := by
  unfold nvidiaApply
  induction pySplitlines out with
  | nil => intro ns; rfl
  | cons line lines ih =>
    intro ns
    show List.foldl _ (nvidiaStep _ (pre ++ ns) line) lines = _
    rw [nvidiaStep_shift]
    exact ih (nvidiaStep c ns line)

theorem rocmApply_shift (out : String) (c : List (String × Nat)) (pre : List Node) :
    ∀ (ns : List Node),
      rocmApply out (shiftIdx pre.length c) (pre ++ ns) = pre ++ rocmApply out c ns := by
  unfold rocmApply
  induction _parse_rocm_smi_json out with
  | nil => intro ns; rfl
  | cons dev devs ih =>
    intro ns
    show List.foldl _ (rocmStep _ (pre ++ ns) dev) devs = _
    rw [rocmStep_shift]
    exact ih (rocmStep c ns dev)

theorem pciFold_shift (links : List (String × List (String × String))) :
    ∀ (devs : List (List (String × String))) (pre : Graph) (g : Graph)
      (c : List (String × Nat)),
      devs.foldl (pciStep links)
          (⟨pre.nodes ++ g.nodes, pre.edges ++ g.edges⟩, shiftIdx pre.nodes.length c)
        = (⟨pre.nodes ++ (devs.foldl (pciStep links) (g, c)).1.nodes,
            pre.edges ++ (devs.foldl (pciStep links) (g, c)).1.edges⟩,
           shiftIdx pre.nodes.length (devs.foldl (pciStep links) (g, c)).2) := by
  intro devs
  induction devs with
  | nil => intro pre g c; rfl
  | cons dev devs ih =>
    intro pre g c
    have hstep : pciStep links
        (⟨pre.nodes ++ g.nodes, pre.edges ++ g.edges⟩, shiftIdx pre.nodes.length c) dev
        = (⟨pre.nodes ++ (pciStep links (g, c) dev).1.nodes,
            pre.edges ++ (pciStep links (g, c) dev).1.edges⟩,
           shiftIdx pre.nodes.length (pciStep links (g, c) dev).2) := by
      unfold pciStep
      cases h : bdfTail (pyOrS (pyGetS dev "Slot") "?") <;>
        simp [h, addChild, shiftIdx, List.length_append, Nat.add_comm]
    show devs.foldl (pciStep links) (pciStep links (_, _) dev) = _
    rw [hstep]
    exact ih pre (pciStep links (g, c) dev).1 (pciStep links (g, c) dev).2

theorem pciEnrich_shift (env : Env) (c : List (String × Nat)) (pre ns : List Node) :
    pciEnrich env (shiftIdx pre.length c) (pre ++ ns) = pre ++ pciEnrich env c ns := by
  unfold pciEnrich
  rw [shiftIdx_isEmpty]
  split <;> split <;> simp [nvidiaApply_shift, rocmApply_shift]

theorem stagePCIbuild_eq (env : Env) (g : Graph) :
    stagePCIbuild env g =
      (⟨g.nodes ++ (stagePCIbuild env ⟨[], []⟩).1.nodes,
        g.edges ++ (stagePCIbuild env ⟨[], []⟩).1.edges⟩,
       shiftIdx g.nodes.length (stagePCIbuild env ⟨[], []⟩).2) := by
  unfold stagePCIbuild
  exact pciFold_shift (_parse_lspci_vv_links env.lspci_vv_out)
    (_parse_lspci_vmm env.lspci_vmm_out) g
    (addChild ⟨[], []⟩ "root" "contains" ⟨"bus:pci", "bus", "PCI Bus", []⟩) []

/-- The PCI segment: the PCI stage run on the empty graph. -/
def pciSegGraph (env : Env) : Graph :=
  stagePCI env ⟨[], []⟩

theorem stagePCI_eq (env : Env) (g : Graph) :
    stagePCI env g = ⟨g.nodes ++ (pciSegGraph env).nodes, g.edges ++ (pciSegGraph env).edges⟩ := by
  by_cases h : env.which_lspci
  · unfold stagePCI pciSegGraph stagePCI
    simp only [h, if_true]
    rw [stagePCIbuild_eq env g]
    have hn : (stagePCIbuild env ⟨[], []⟩).1.nodes =
        ([] : List Node) ++ (stagePCIbuild env ⟨[], []⟩).1.nodes := rfl
    show (⟨pciEnrich env (shiftIdx g.nodes.length (stagePCIbuild env ⟨[], []⟩).2)
            (g.nodes ++ (stagePCIbuild env ⟨[], []⟩).1.nodes), _⟩ : Graph) = _
    rw [show g.nodes.length = (g.nodes : List Node).length from rfl,
      pciEnrich_shift env (stagePCIbuild env ⟨[], []⟩).2 g.nodes
        (stagePCIbuild env ⟨[], []⟩).1.nodes]
  · simp [stagePCI, pciSegGraph, h]

/-- Full decomposition of the assembled graph into per-stage segments, each
a function of the environment alone. -/
theorem collect_eq (env : Env) :
    collect_linux_hardware_graph env =
      ⟨rootNode env :: (cpuSegNodes env ++ (memSegNodes env ++ ((pciSegGraph env).nodes
         ++ (usbSegNodes env ++ (stoSegNodes env ++ netSegNodes env))))),
       cpuSegEdges env ++ (memSegEdges env ++ ((pciSegGraph env).edges
         ++ (usbSegEdges env ++ (stoSegEdges env ++ netSegEdges env))))⟩ := by
  unfold collect_linux_hardware_graph
  rw [stageCPU_eq, stageMemory_eq, stagePCI_eq, stageUSB_eq, stageStorage_eq, stageNet_eq]
  simp [List.append_assoc]

/-! ## Infrastructure: the append invariant

Every edge is appended together with its target node, and its source is a
node already present at that time.  Linked captures this: the k-th edge
targets the (k+1)-th node id, and its source lies among the first k+1 ids. -/

def Linked (g : Graph) : Prop :=
  g.edges.map Edge.target = (nodeIds g).drop 1 ∧
  (∀ (k : Nat) (e : Edge), g.edges.get? k = some e →
    e.source ∈ (nodeIds g).take (k + 1)) ∧
  (∀ e ∈ g.edges, e.kind = "contains")

theorem linked_single (n : Node) : Linked ⟨[n], []⟩ := by
  refine ⟨rfl, ?_, ?_⟩
  · intro k e hk; simp [List.get?] at hk
  · intro e he; simp at he

theorem nodeIds_addChild (g : Graph) (p l : String) (n : Node) :
    nodeIds (addChild g p l n) = nodeIds g ++ [n.id] := by
  simp [addChild, nodeIds]

theorem nodeIds_addChildren (g : Graph) (p l : String) (ns : List Node) :
    nodeIds (addChildren g p l ns) = nodeIds g ++ ns.map Node.id := by
  rw [addChildren_eq]
  simp [nodeIds]

theorem linked_addChild {g : Graph} {p : String} (l : String) (n : Node)
    (h : Linked g) (hp : p ∈ nodeIds g) : Linked (addChild g p l n) := by
  obtain ⟨h1, h2, h3⟩ := h
  rcases hq : nodeIds g with _ | ⟨a, t⟩
  · rw [hq] at hp; cases hp
  · have hlen : g.edges.length = t.length := by
      have hc := congrArg List.length h1
      simpa [hq] using hc
    refine ⟨?_, ?_, ?_⟩
    · show (g.edges ++ [mkEdge p l n]).map Edge.target = (nodeIds (addChild g p l n)).drop 1
      rw [nodeIds_addChild, hq]
      rw [hq] at h1
      simp at h1
      simp [h1, mkEdge]
    · intro k e hk
      simp only [addChild] at hk
      rw [nodeIds_addChild, hq]
      by_cases hkl : k < g.edges.length
      · rw [List.get?_append hkl] at hk
        have hs := h2 k e hk
        rw [hq] at hs
        have hle : k + 1 ≤ (a :: t).length := by
          simp only [List.length_cons]
          omega
        rw [List.take_append_of_le_length hle]
        exact hs
      · have hk2 : k = g.edges.length := by
          by_contra hne
          have hge : g.edges.length + 1 ≤ k := by omega
          rw [List.get?_append_right (by omega)] at hk
          rcases hkk : k - g.edges.length with _ | m
          · omega
          · rw [hkk] at hk
            simp at hk
        subst hk2
        rw [List.get?_append_right (le_refl _)] at hk
        simp at hk
        have hsrc : e.source = p := by rw [← hk]; rfl
        rw [hsrc]
        have hlen2 : g.edges.length + 1 = (a :: t).length := by
          simp [hlen]
        rw [hlen2, ← hq, List.take_left]
        exact hp
    · intro e he
      rcases List.mem_append.mp he with he | he
      · exact h3 e he
      · simp at he; rw [he]; rfl

theorem linked_addChildren {g : Graph} {p : String} (l : String)
    (h : Linked g) (hp : p ∈ nodeIds g) : ∀ (ns : List Node), Linked (addChildren g p l ns) := by
  intro ns
  induction ns generalizing g with
  | nil => exact h
  | cons n ns ih =>
    show Linked (addChildren (addChild g p l n) p l ns)
    refine ih (linked_addChild l n ⟨h.1, h.2.1, h.2.2⟩ hp) ?_
    rw [nodeIds_addChild]
    exact List.mem_append_left _ hp

/-! ### Enrichment preserves the node id list -/

theorem foldl_preserve {α β : Type} (f : β → α → β) (P : β → Prop)
    (h : ∀ b a, P b → P (f b a)) : ∀ (l : List α) (b : β), P b → P (l.foldl f b) := by
  intro l
  induction l with
  | nil => intro b hb; exact hb
  | cons a l ih => intro b hb; exact ih (f b a) (h b a hb)

theorem set_self_of_get? {α : Type} : ∀ (l : List α) (i : Nat) (a : α),
    l.get? i = some a → l.set i a = l := by
  intro l
  induction l with
  | nil => intro i a h; simp [List.get?] at h
  | cons b l ih =>
    intro i a h
    cases i with
    | zero =>
      have hb : b = a := Option.some.inj h
      subst hb
      simp [List.set]
    | succ i =>
      show b :: l.set i a = b :: l
      rw [ih i a h]

theorem patchAt_map_id {f : Node → Node} (hf : ∀ n, (f n).id = n.id)
    (ns : List Node) (i : Nat) : (patchAt ns i f).map Node.id = ns.map Node.id := by
  unfold patchAt
  cases hg : ns.get? i with
  | none => rfl
  | some n =>
    have h1 : (ns.set i (f n)).map Node.id = (ns.map Node.id).set i ((f n).id) := by
      simp [List.map_set]
    rw [h1, hf n]
    apply set_self_of_get?
    rw [List.get?_map, hg]
    rfl

theorem nvidiaPatch_id (parts : List String) (n : Node) :
    (nvidiaPatch parts n).id = n.id := rfl

theorem rocmPatch_id (dev : List (String × String)) (n : Node) :
    (rocmPatch dev n).id = n.id := rfl

theorem nvidiaStep_map_id (c : List (String × Nat)) (ns : List Node) (line : String) :
    (nvidiaStep c ns line).map Node.id = ns.map Node.id := by
  simp only [nvidiaStep]
  by_cases h : (List.map pyStrip (pySplitOn line ",")).length < 2
  · rw [if_pos h]
  · rw [if_neg h]
    cases hl : nvidiaLookup c ((List.map pyStrip (pySplitOn line ",")).getD 0 "") with
    | none => rfl
    | some i => exact patchAt_map_id (nvidiaPatch_id _) ns i

theorem rocmStep_map_id (c : List (String × Nat)) (ns : List Node)
    (dev : List (String × String)) : (rocmStep c ns dev).map Node.id = ns.map Node.id := by
  unfold rocmStep
  cases h : bdfTail (pyGetS dev "bdf") with
  | none => rfl
  | some sk =>
    simp only [h]
    cases hl : (dictGet c sk).orElse (fun _ => dictGet c (pyGetS dev "bdf")) with
    | none => rfl
    | some i => exact patchAt_map_id (rocmPatch_id dev) ns i

theorem nvidiaApply_map_id (out : String) (c : List (String × Nat)) (ns : List Node) :
    (nvidiaApply out c ns).map Node.id = ns.map Node.id := by
  unfold nvidiaApply
  refine foldl_preserve (nvidiaStep c) (fun b => b.map Node.id = ns.map Node.id) ?_ _ ns rfl
  intro b line hb
  rw [nvidiaStep_map_id, hb]

theorem rocmApply_map_id (out : String) (c : List (String × Nat)) (ns : List Node) :
    (rocmApply out c ns).map Node.id = ns.map Node.id := by
  unfold rocmApply
  refine foldl_preserve (rocmStep c) (fun b => b.map Node.id = ns.map Node.id) ?_ _ ns rfl
  intro b dev hb
  rw [rocmStep_map_id, hb]

theorem pciEnrich_map_id (env : Env) (c : List (String × Nat)) (ns : List Node) :
    (pciEnrich env c ns).map Node.id = ns.map Node.id := by
  unfold pciEnrich
  split <;> split <;>
    simp [nvidiaApply_map_id, rocmApply_map_id]

/-! ### The invariant holds for every assembled graph -/

theorem pciFold_graph (links : List (String × List (String × String))) :
    ∀ (devs : List (List (String × String))) (st : Graph × List (String × Nat)),
      (devs.foldl (pciStep links) st).1
        = addChildren st.1 "bus:pci" "device" (devs.map (pciDevNode links)) := by
  intro devs
  induction devs with
  | nil => intro st; rfl
  | cons dev devs ih =>
    intro st
    show (devs.foldl (pciStep links) (pciStep links st dev)).1 = _
    rw [ih]
    rfl

theorem linked_stageCPU (env : Env) {g : Graph} (h : Linked g)
    (hr : "root" ∈ nodeIds g) : Linked (stageCPU env g) := by
  unfold stageCPU
  by_cases hl : env.which_lscpu
  · simp only [hl, if_true]
    rcases hc : _parse_lscpu_json env.lscpu_out env.which_dmidecode env.dmi_processor_out with
      _ | ⟨c0, cs⟩
    · exact linked_addChildren "contains" h hr []
    · refine linked_addChildren "numa" (linked_addChildren "contains" h hr (c0 :: cs)) ?_ _
      rw [nodeIds_addChildren]
      refine List.mem_append_right _ ?_
      simp
  · simp only [hl, if_false]
    exact h

theorem linked_stageMemory (env : Env) {g : Graph} (h : Linked g)
    (hr : "root" ∈ nodeIds g) : Linked (stageMemory env g) := by
  unfold stageMemory
  refine linked_addChildren "dimm" (linked_addChild "contains" _ h hr) ?_ _
  rw [nodeIds_addChild]
  refine List.mem_append_right _ ?_
  simp [memRootNode]

theorem linked_of_ids_eq {g h : Graph} (hl : Linked g) (hn : nodeIds h = nodeIds g)
    (he : h.edges = g.edges) : Linked h := by
  obtain ⟨h1, h2, h3⟩ := hl
  refine ⟨?_, ?_, ?_⟩
  · rw [he, hn]; exact h1
  · intro k e hk
    rw [he] at hk
    rw [hn]
    exact h2 k e hk
  · intro e hee
    rw [he] at hee
    exact h3 e hee

theorem linked_stagePCI (env : Env) {g : Graph} (h : Linked g)
    (hr : "root" ∈ nodeIds g) : Linked (stagePCI env g) := by
  unfold stagePCI
  by_cases hl : env.which_lspci
  · simp only [hl, if_true]
    unfold stagePCIbuild
    rw [pciFold_graph]
    have hb : Linked (addChildren (addChild g "root" "contains" ⟨"bus:pci", "bus", "PCI Bus", []⟩)
        "bus:pci" "device"
        ((_parse_lspci_vmm env.lspci_vmm_out).map (pciDevNode (_parse_lspci_vv_links env.lspci_vv_out)))) := by
      refine linked_addChildren "device" (linked_addChild "contains" _ h hr) ?_ _
      rw [nodeIds_addChild]
      exact List.mem_append_right _ (by simp)
    refine linked_of_ids_eq hb ?_ rfl
    show List.map Node.id (pciEnrich env _ _) = _
    rw [pciEnrich_map_id]
    rfl
  · simp only [hl, if_false]
    exact h

theorem linked_stageUSB (env : Env) {g : Graph} (h : Linked g)
    (hr : "root" ∈ nodeIds g) : Linked (stageUSB env g) := by
  unfold stageUSB
  by_cases hl : env.which_lsusb
  · simp only [hl, if_true]
    refine linked_addChildren "device" (linked_addChild "contains" _ h hr) ?_ _
    rw [nodeIds_addChild]
    exact List.mem_append_right _ (by simp)
  · simp only [hl, if_false]
    exact h

theorem linked_stageStorage (env : Env) {g : Graph} (h : Linked g)
    (hr : "root" ∈ nodeIds g) : Linked (stageStorage env g) := by
  unfold stageStorage
  have h1 : Linked (addChild g "root" "contains" ⟨"bus:storage", "bus", "Storage", []⟩) :=
    linked_addChild "contains" _ h hr
  have hm : "bus:storage" ∈ nodeIds (addChild g "root" "contains"
      ⟨"bus:storage", "bus", "Storage", []⟩) := by
    rw [nodeIds_addChild]
    exact List.mem_append_right _ (by simp)
  by_cases hn : env.which_nvme <;> by_cases hb : env.which_lsblk <;>
    simp only [hn, hb, if_true, if_false]
  · refine linked_addChildren "disk" (linked_addChildren "nvme" h1 hm _) ?_ _
    rw [nodeIds_addChildren]
    exact List.mem_append_left _ hm
  · exact linked_addChildren "nvme" h1 hm _
  · exact linked_addChildren "disk" h1 hm _
  · exact h1

theorem linked_stageNet (env : Env) {g : Graph} (h : Linked g)
    (hr : "root" ∈ nodeIds g) : Linked (stageNet env g) := by
  unfold stageNet
  by_cases hl : env.which_ip
  · simp only [hl, if_true]
    refine linked_addChildren "iface" (linked_addChild "contains" _ h hr) ?_ _
    rw [nodeIds_addChild]
    exact List.mem_append_right _ (by simp)
  · simp only [hl, if_false]
    exact h

theorem mem_nodeIds_append (g : Graph) (A : List Node) (B : List Edge) (x : String)
    (hx : x ∈ nodeIds g) : x ∈ nodeIds ⟨g.nodes ++ A, g.edges ++ B⟩ := by
  show x ∈ (g.nodes ++ A).map Node.id
  rw [List.map_append]
  exact List.mem_append_left _ hx

theorem linked_collect (env : Env) : Linked (collect_linux_hardware_graph env) := by
  unfold collect_linux_hardware_graph
  have h0 : Linked ⟨[rootNode env], []⟩ := linked_single _
  have r0 : "root" ∈ nodeIds ⟨[rootNode env], []⟩ := by simp [nodeIds, rootNode]
  have h1 := linked_stageCPU env h0 r0
  have r1 : "root" ∈ nodeIds (stageCPU env ⟨[rootNode env], []⟩) := by
    rw [stageCPU_eq]; exact mem_nodeIds_append _ _ _ _ r0
  have h2 := linked_stageMemory env h1 r1
  have r2 : "root" ∈ nodeIds (stageMemory env (stageCPU env ⟨[rootNode env], []⟩)) := by
    rw [stageMemory_eq]; exact mem_nodeIds_append _ _ _ _ r1
  have h3 := linked_stagePCI env h2 r2
  have r3 : "root" ∈ nodeIds (stagePCI env (stageMemory env
      (stageCPU env ⟨[rootNode env], []⟩))) := by
    rw [stagePCI_eq]; exact mem_nodeIds_append _ _ _ _ r2
  have h4 := linked_stageUSB env h3 r3
  have r4 : "root" ∈ nodeIds (stageUSB env (stagePCI env (stageMemory env
      (stageCPU env ⟨[rootNode env], []⟩)))) := by
    rw [stageUSB_eq]; exact mem_nodeIds_append _ _ _ _ r3
  have h5 := linked_stageStorage env h4 r4
  have r5 : "root" ∈ nodeIds (stageStorage env (stageUSB env (stagePCI env
      (stageMemory env (stageCPU env ⟨[rootNode env], []⟩))))) := by
    rw [stageStorage_eq]; exact mem_nodeIds_append _ _ _ _ r4
  exact linked_stageNet env h5 r5

/-! ## Referential integrity -/

/-- Every edge endpoint names a node of the same graph. -/
def refIntegrity (g : Graph) : Prop :=
  ∀ e ∈ g.edges, e.source ∈ nodeIds g ∧ e.target ∈ nodeIds g

theorem refIntegrity_of_linked {g : Graph} (h : Linked g) : refIntegrity g := by
  obtain ⟨h1, h2, _⟩ := h
  intro e he
  constructor
  · obtain ⟨k, hk⟩ := List.get?_of_mem he
    exact List.take_subset _ _ (h2 k e hk)
  · have hm : e.target ∈ g.edges.map Edge.target := List.mem_map_of_mem _ he
    rw [h1] at hm
    exact List.drop_subset _ _ hm

/-! ## Tree structure helpers -/

theorem indexOf_lt_of_mem_take {α : Type} [DecidableEq α] :
    ∀ (l : List α) (n : Nat) (a : α), a ∈ l.take n → l.indexOf a < n := by
  intro l
  induction l with
  | nil => intro n a h; simp at h
  | cons x t ih =>
    intro n a h
    cases n with
    | zero => simp at h
    | succ n =>
      rw [List.take_succ_cons] at h
      rcases List.mem_cons.mp h with h | h
      · subst h
        simp [List.indexOf_cons_self]
      · by_cases hx : a = x
        · subst hx
          simp [List.indexOf_cons_self]
        · rw [List.indexOf_cons_ne _ (fun hh => hx hh.symm)]
          have := ih n a h
          omega

theorem indexOf_of_get? {α : Type} [DecidableEq α] :
    ∀ (l : List α) (i : Nat) (a : α), l.Nodup → l.get? i = some a → l.indexOf a = i := by
  intro l
  induction l with
  | nil => intro i a _ h; simp [List.get?] at h
  | cons x t ih =>
    intro i a hnd h
    cases i with
    | zero =>
      have : x = a := Option.some.inj h
      subst this
      simp [List.indexOf_cons_self]
    | succ i =>
      have ht : t.get? i = some a := h
      have hmem : a ∈ t := List.get?_mem ht
      have hne : a ≠ x := by
        intro hax
        subst hax
        exact (List.nodup_cons.mp hnd).1 hmem
      rw [List.indexOf_cons_ne _ (fun hh => hne hh.symm)]
      rw [ih i a (List.nodup_cons.mp hnd).2 ht]

/-- The contains subgraph is a tree rooted at root: unique ids, root is the
first node, every edge is a contains edge, the k-th edge's target is the
(k+1)-th node (so root has no parent and every other node exactly one), and
every edge points from an earlier node to a later one (so there is no
cycle). -/
def containsTree (g : Graph) : Prop :=
  (nodeIds g).Nodup ∧
  (nodeIds g).head? = some "root" ∧
  (∀ e ∈ g.edges, e.kind = "contains") ∧
  g.edges.map Edge.target = (nodeIds g).drop 1 ∧
  ∀ e ∈ g.edges, (nodeIds g).indexOf e.source < (nodeIds g).indexOf e.target

theorem containsTree_of_linked {g : Graph} (h : Linked g)
    (hnd : (nodeIds g).Nodup) (hhead : (nodeIds g).head? = some "root") :
    containsTree g := by
  obtain ⟨h1, h2, h3⟩ := h
  refine ⟨hnd, hhead, h3, h1, ?_⟩
  intro e he
  obtain ⟨k, hk⟩ := List.get?_of_mem he
  have htgt : (nodeIds g).get? (k + 1) = some e.target := by
    have hmap : (g.edges.map Edge.target).get? k = some e.target := by
      rw [List.get?_map, hk]
      rfl
    rw [h1] at hmap
    rw [← List.get?_drop]
    simpa using hmap
  have hidx : (nodeIds g).indexOf e.target = k + 1 :=
    indexOf_of_get? _ _ _ hnd htgt
  have hsrc : (nodeIds g).indexOf e.source < k + 1 :=
    indexOf_lt_of_mem_take _ _ _ (h2 k e hk)
  omega

/-- Reachability from root along the contains edges. -/
def edgeStep (g : Graph) (a b : String) : Prop :=
  ∃ e ∈ g.edges, e.source = a ∧ e.target = b

theorem reach_of_containsTree {g : Graph} (h : containsTree g) :
    ∀ x ∈ nodeIds g, Relation.ReflTransGen (edgeStep g) "root" x := by
  obtain ⟨hnd, hhead, _, h4, h5⟩ := h
  intro x hx
  obtain ⟨i, hi⟩ := List.get?_of_mem hx
  clear hx
  induction i using Nat.strong_induction_on generalizing x with
  | _ i ih =>
    cases i with
    | zero =>
      have hx0 : (nodeIds g).head? = some x := by
        cases hq : nodeIds g with
        | nil => rw [hq] at hi; simp [List.get?] at hi
        | cons a t =>
          rw [hq] at hi
          have : a = x := Option.some.inj hi
          simp [hq, this]
      have : x = "root" := by
        rw [hx0] at hhead
        exact Option.some.inj hhead
      rw [this]
    | succ i =>
      have htail : ((nodeIds g).drop 1).get? i = some x := by
        rw [List.get?_drop]
        simpa [Nat.add_comm] using hi
      rw [← h4] at htail
      have hmap := htail
      rw [List.get?_map] at hmap
      rcases hge : g.edges.get? i with _ | e
      · rw [hge] at hmap; cases hmap
      · rw [hge] at hmap
        have hTgt : e.target = x := Option.some.inj hmap
        have heMem : e ∈ g.edges := List.get?_mem hge
        have htin : e.target ∈ nodeIds g := by
          have hgt : (nodeIds g).get? (i + 1) = some e.target := by
            rw [hTgt]
            exact hi
          exact List.get?_mem hgt
        have hidx_t : (nodeIds g).indexOf e.target = i + 1 := by
          refine indexOf_of_get? _ (i + 1) _ hnd ?_
          rw [hTgt]
          exact hi
        have hlt := h5 e heMem
        have hsrcMem : e.source ∈ nodeIds g := by
          have hlen : (nodeIds g).indexOf e.target < (nodeIds g).length :=
            List.indexOf_lt_length.mpr htin
          exact List.indexOf_lt_length.mp (by omega)
        obtain ⟨j, hj⟩ := List.get?_of_mem hsrcMem
        have hj_eq : (nodeIds g).indexOf e.source = j := indexOf_of_get? _ _ _ hnd hj
        rw [hj_eq, hidx_t] at hlt
        have hreach := ih j (by omega) e.source hj
        exact Relation.ReflTransGen.tail hreach ⟨e, heMem, rfl, hTgt⟩

/-! ## Uniqueness of node ids

Ids fall into families recognisable from their first three characters
(the three bus:* constants are keyed by their full text, all starting
"bus").  Different families can never collide; within a family the parser
decides uniqueness. -/

/-- The family key of a node id. -/
def idKey (s : String) : List Char :=
  if s.data.take 3 = ['b', 'u', 's'] then s.data else s.data.take 3

/-- A concatenation of groups of strings is duplicate-free when the group
keys are distinct, every string carries its group's key, and each group is
itself duplicate-free. -/
theorem nodup_keyed_join :
    ∀ (Ls : List (List Char × List String)),
      (Ls.map Prod.fst).Nodup →
      (∀ p ∈ Ls, ∀ s ∈ p.2, idKey s = p.1) →
      (∀ p ∈ Ls, p.2.Nodup) →
      ((Ls.map Prod.snd).join).Nodup := by
  intro Ls
  induction Ls with
  | nil => intro _ _ _; simp
  | cons p Ls ih =>
    intro hk hke hnd
    simp only [List.map_cons, List.join_cons]
    rw [List.nodup_append]
    rw [List.map_cons] at hk
    have hk' := List.nodup_cons.mp hk
    refine ⟨hnd p (List.mem_cons_self p Ls),
      ih hk'.2 (fun q hq s hs => hke q (List.mem_cons_of_mem p hq) s hs)
        (fun q hq => hnd q (List.mem_cons_of_mem p hq)), ?_⟩
    intro a ha hb
    obtain ⟨l, hl, hal⟩ := List.mem_join.mp hb
    obtain ⟨q, hq, hql⟩ := List.mem_map.mp hl
    have h1 : idKey a = p.1 := hke p (List.mem_cons_self p Ls) a ha
    have h2 : idKey a = q.1 := hke q (List.mem_cons_of_mem p hq) a (by rw [hql]; exact hal)
    exact hk'.1 (by rw [← h1, h2]; exact List.mem_map_of_mem Prod.fst hq)

theorem idKey_numa (t : String) : idKey ("numa:" ++ t) = "num".data := by
  have h : ("numa:" ++ t).data = 'n' :: 'u' :: 'm' :: 'a' :: ':' :: t.data := by
    rw [String.data_append]
    rfl
  unfold idKey
  rw [h]
  rfl

theorem idKey_dimm (t : String) : idKey ("dimm:" ++ t) = "dim".data := by
  have h : ("dimm:" ++ t).data = 'd' :: 'i' :: 'm' :: 'm' :: ':' :: t.data := by
    rw [String.data_append]
    rfl
  unfold idKey
  rw [h]
  rfl

theorem idKey_pci (t : String) : idKey ("pci:" ++ t) = "pci".data := by
  have h : ("pci:" ++ t).data = 'p' :: 'c' :: 'i' :: ':' :: t.data := by
    rw [String.data_append]
    rfl
  unfold idKey
  rw [h]
  rfl

theorem idKey_usb (t : String) : idKey ("usb:" ++ t) = "usb".data := by
  have h : ("usb:" ++ t).data = 'u' :: 's' :: 'b' :: ':' :: t.data := by
    rw [String.data_append]
    rfl
  unfold idKey
  rw [h]
  rfl

theorem idKey_nvme (t : String) : idKey ("nvme:" ++ t) = "nvm".data := by
  have h : ("nvme:" ++ t).data = 'n' :: 'v' :: 'm' :: 'e' :: ':' :: t.data := by
    rw [String.data_append]
    rfl
  unfold idKey
  rw [h]
  rfl

theorem idKey_disk (t : String) : idKey ("disk:" ++ t) = "dis".data := by
  have h : ("disk:" ++ t).data = 'd' :: 'i' :: 's' :: 'k' :: ':' :: t.data := by
    rw [String.data_append]
    rfl
  unfold idKey
  rw [h]
  rfl

theorem idKey_net (t : String) : idKey ("net:" ++ t) = "net".data := by
  have h : ("net:" ++ t).data = 'n' :: 'e' :: 't' :: ':' :: t.data := by
    rw [String.data_append]
    rfl
  unfold idKey
  rw [h]
  rfl

/-- Each branch of the if carries the shared "p ++" outside. -/
theorem str_ite_append (c : Prop) [Decidable c] (p a b : String) :
    (if c then p ++ a else p ++ b) = p ++ (if c then a else b) := by
  by_cases h : c
  · rw [if_pos h, if_pos h]
  · rw [if_neg h, if_neg h]

theorem pciDevNode_id (links : List (String × List (String × String)))
    (dev : List (String × String)) :
    (pciDevNode links dev).id = "pci:" ++ pyOrS (pyGetS dev "Slot") "?" := rfl

theorem memRootNode_id (env : Env) : (memRootNode env).id = "bus:memory" := rfl

theorem netIfaceNode_id (env : Env) (iface : List (String × String)) :
    ∃ t, (netIfaceNode env iface).id = "net:" ++ t := ⟨_, rfl⟩

theorem numaNode_id (d : NumaDir) : ∃ t, (numaNode d).id = "numa:" ++ t := ⟨_, rfl⟩

theorem dimmNode_id (dev : List (String × String)) (idx : Nat) :
    ∃ t, (dimmNode dev idx).id = "dimm:" ++ t := ⟨_, rfl⟩

theorem nvmeNode_id (dev : Json) (k : Nat) : ∃ t, (nvmeNode dev k).id = "nvme:" ++ t := by
  simp only [nvmeNode, str_ite_append]
  exact ⟨_, rfl⟩

theorem parse_lscpu_ids (out : String) (w : Bool) (d : String) :
    ∀ n ∈ _parse_lscpu_json out w d, n.id = "cpu:0" := by
  intro n hn
  unfold _parse_lscpu_json at hn
  split at hn
  · exact absurd hn (List.not_mem_nil n)
  · cases hj : jsonLoads out <;> rw [hj] at hn
    · exact absurd hn (List.not_mem_nil n)
    · rename_i data
      cases data
      case obj kvs =>
        replace hn : n ∈ (if (dictGet kvs "lscpu").isSome then
            match lscpuWalk (jsonSize (Json.obj kvs)) ((Json.obj kvs).getJ "lscpu") [] with
            | none => []
            | some entries => [lscpuNode entries w d]
          else []) := hn
        split at hn
        · cases hw : lscpuWalk (jsonSize (Json.obj kvs)) ((Json.obj kvs).getJ "lscpu") [] <;>
            rw [hw] at hn
          · exact absurd hn (List.not_mem_nil n)
          · rw [List.mem_singleton.mp hn]; rfl
        · exact absurd hn (List.not_mem_nil n)
      all_goals exact absurd hn (List.not_mem_nil n)

theorem cpuNodesOf_ids (env : Env) : ∀ n ∈ cpuNodesOf env, n.id = "cpu:0" := by
  intro n hn
  unfold cpuNodesOf at hn
  split at hn
  · exact parse_lscpu_ids _ _ _ n hn
  · exact absurd hn (List.not_mem_nil n)

theorem numaNodesOf_ids (env : Env) :
    ∀ n ∈ numaNodesOf env, ∃ t, n.id = "numa:" ++ t := by
  intro n hn
  unfold numaNodesOf at hn
  split at hn
  · exact absurd hn (List.not_mem_nil n)
  · unfold _collect_numa_nodes at hn
    split at hn
    · exact absurd hn (List.not_mem_nil n)
    · obtain ⟨d, _, rfl⟩ := List.mem_map.mp hn
      exact numaNode_id d

/-- The device-record list of _parse_dmidecode_memory, before size filtering. -/
def dmiDevices (output : String) : List (List (String × String)) :=
  let st := (pySplitlines output).foldl dmiMemStep ([], [])
  if dictGet st.2 "__kind__" == some "Memory Device" then st.1 ++ [st.2] else st.1

/-- One device step of the DIMM node fold. -/
def dimmFoldStep (acc : List Node × Nat) (dev : List (String × String)) :
    List Node × Nat :=
  if dictGetD dev "Size" "" = ""
      || strStarts (strLower (dictGetD dev "Size" "")) "no module" then acc
  else (acc.1 ++ [dimmNode dev acc.2], acc.2 + 1)

theorem parse_dmidecode_eq (out : String) :
    _parse_dmidecode_memory out =
      if out = "" then [] else ((dmiDevices out).foldl dimmFoldStep ([], 0)).1 := rfl

theorem dimmFoldStep_ids (acc : List Node × Nat) (dev : List (String × String))
    (h : ∀ n ∈ acc.1, ∃ t, n.id = "dimm:" ++ t) :
    ∀ n ∈ (dimmFoldStep acc dev).1, ∃ t, n.id = "dimm:" ++ t := by
  intro n hn
  unfold dimmFoldStep at hn
  split at hn
  · exact h n hn
  · rcases List.mem_append.mp hn with hm | hm
    · exact h n hm
    · rw [List.mem_singleton.mp hm]
      exact dimmNode_id dev acc.2

theorem parse_dmidecode_ids (out : String) :
    ∀ n ∈ _parse_dmidecode_memory out, ∃ t, n.id = "dimm:" ++ t := by
  rw [parse_dmidecode_eq]
  split
  · intro n hn; exact absurd hn (List.not_mem_nil n)
  · exact foldl_preserve dimmFoldStep
      (fun acc => ∀ n ∈ acc.1, ∃ t, n.id = "dimm:" ++ t)
      (fun b a hb => dimmFoldStep_ids b a hb) (dmiDevices out) ([], 0)
      (fun n hn => absurd hn (List.not_mem_nil n))

theorem dimmNodesOf_ids (env : Env) :
    ∀ n ∈ dimmNodesOf env, ∃ t, n.id = "dimm:" ++ t := by
  intro n hn
  unfold dimmNodesOf at hn
  split at hn
  · exact parse_dmidecode_ids _ n hn
  · exact absurd hn (List.not_mem_nil n)

/-- One line step of the lsusb node fold. -/
def usbFoldStep (nodes : List Node) (line : String) : List Node :=
  match matchLsusb (pyStrip line) with
  | none => nodes
  | some (bus, dev, vid, pid, rest) =>
    nodes ++ [⟨"usb:" ++ bus ++ "-" ++ dev, "usb-device", pyStrip rest,
               [("bus", bus), ("device", dev),
                ("vendor_id", strLower vid), ("product_id", strLower pid)]⟩]

theorem parse_lsusb_eq (out : String) :
    _parse_lsusb out = (pySplitlines out).foldl usbFoldStep [] := rfl

theorem usbFoldStep_ids (nodes : List Node) (line : String)
    (h : ∀ n ∈ nodes, ∃ t, n.id = "usb:" ++ t) :
    ∀ n ∈ usbFoldStep nodes line, ∃ t, n.id = "usb:" ++ t := by
  intro n hn
  unfold usbFoldStep at hn
  split at hn
  · exact h n hn
  · rcases List.mem_append.mp hn with hm | hm
    · exact h n hm
    · rw [List.mem_singleton.mp hm]
      exact ⟨_, by rw [String.append_assoc, String.append_assoc]⟩

theorem parse_lsusb_ids (out : String) :
    ∀ n ∈ _parse_lsusb out, ∃ t, n.id = "usb:" ++ t := by
  rw [parse_lsusb_eq]
  exact foldl_preserve usbFoldStep (fun ns => ∀ n ∈ ns, ∃ t, n.id = "usb:" ++ t)
    (fun b a hb => usbFoldStep_ids b a hb) (pySplitlines out) []
    (fun n hn => absurd hn (List.not_mem_nil n))

/-- One record step of the NVMe node fold. -/
def nvmeFoldStep (nodes : List Node) (dev : Json) : List Node :=
  nodes ++ [nvmeNode dev nodes.length]

theorem parse_nvme_eq (out : String) :
    _parse_nvme_list_json out =
      if out = "" then []
      else match jsonLoads out with
        | none => []
        | some data => (nvmeDevices data).foldl nvmeFoldStep [] := rfl

theorem parse_nvme_ids (out : String) :
    ∀ n ∈ _parse_nvme_list_json out, ∃ t, n.id = "nvme:" ++ t := by
  rw [parse_nvme_eq]
  split
  · intro n hn; exact absurd hn (List.not_mem_nil n)
  · split
    · intro n hn; exact absurd hn (List.not_mem_nil n)
    · exact foldl_preserve nvmeFoldStep (fun ns => ∀ n ∈ ns, ∃ t, n.id = "nvme:" ++ t)
        (fun b a hb n hn => by
          rcases List.mem_append.mp hn with hm | hm
          · exact hb n hm
          · rw [List.mem_singleton.mp hm]
            exact nvmeNode_id a b.length)
        _ [] (fun n hn => absurd hn (List.not_mem_nil n))

/-- One record step of the lsblk node fold. -/
def lsblkFoldStep (nodes : List Node) (d : Json) : List Node :=
  match lsblkNode d with
  | some n => nodes ++ [n]
  | none => nodes

theorem parse_lsblk_eq (out : String) :
    _parse_lsblk_json out =
      if out = "" then []
      else match jsonLoads out with
        | none => []
        | some data => (lsblkDevs data).foldl lsblkFoldStep [] := rfl

theorem lsblkNode_id (d : Json) (n : Node) (h : lsblkNode d = some n) :
    ∃ t, n.id = "disk:" ++ t := by
  simp only [lsblkNode] at h
  split at h
  · exact Option.noConfusion h
  · split at h
    · exact Option.noConfusion h
    · obtain rfl := Option.some.inj h
      exact ⟨_, rfl⟩

theorem parse_lsblk_ids (out : String) :
    ∀ n ∈ _parse_lsblk_json out, ∃ t, n.id = "disk:" ++ t := by
  rw [parse_lsblk_eq]
  split
  · intro n hn; exact absurd hn (List.not_mem_nil n)
  · split
    · intro n hn; exact absurd hn (List.not_mem_nil n)
    · exact foldl_preserve lsblkFoldStep (fun ns => ∀ n ∈ ns, ∃ t, n.id = "disk:" ++ t)
        (fun b a hb n hn => by
          unfold lsblkFoldStep at hn
          split at hn
          · rcases List.mem_append.mp hn with hm | hm
            · exact hb n hm
            · rw [List.mem_singleton.mp hm]
              exact lsblkNode_id a _ (by assumption)
          · exact hb n hn)
        _ [] (fun n hn => absurd hn (List.not_mem_nil n))

/-- A bus constant's singleton, present when its tool is. -/
def busIf (b : Bool) (s : String) : List String :=
  if b then [s] else []

/-- The PCI device-node ids of the PCI stage. -/
def pciDevIds (env : Env) : List String :=
  if env.which_lspci then
    (_parse_lspci_vmm env.lspci_vmm_out).map
      (fun dev => "pci:" ++ pyOrS (pyGetS dev "Slot") "?")
  else []

/-- The USB device nodes of the USB stage (gated by lsusb). -/
def usbNodesOf (env : Env) : List Node :=
  if env.which_lsusb then _parse_lsusb env.lsusb_out else []

theorem stagePCIbuild_nodes (env : Env) (g : Graph) :
    (stagePCIbuild env g).1 =
      addChildren (addChild g "root" "contains" ⟨"bus:pci", "bus", "PCI Bus", []⟩)
        "bus:pci" "device"
        ((_parse_lspci_vmm env.lspci_vmm_out).map
          (pciDevNode (_parse_lspci_vv_links env.lspci_vv_out))) := by
  unfold stagePCIbuild
  exact pciFold_graph _ _ _

theorem pciSegGraph_ids (env : Env) :
    (pciSegGraph env).nodes.map Node.id =
      busIf env.which_lspci "bus:pci" ++ pciDevIds env := by
  by_cases h : env.which_lspci
  · unfold pciSegGraph stagePCI
    simp only [h, if_true]
    show (pciEnrich env (stagePCIbuild env ⟨[], []⟩).2
        (stagePCIbuild env ⟨[], []⟩).1.nodes).map Node.id = _
    rw [pciEnrich_map_id, stagePCIbuild_nodes, addChildren_eq]
    simp only [List.map_append, List.map_map, busIf, pciDevIds, h, if_true]
    rfl
  · unfold pciSegGraph stagePCI
    simp [h, busIf, pciDevIds]

/-- The node ids of the assembled graph, as a keyed family concatenation in
stage order. -/
def idGroups (env : Env) : List (List Char × List String) :=
  [("roo".data, ["root"]),
   ("cpu".data, (cpuNodesOf env).map Node.id),
   ("num".data, (numaNodesOf env).map Node.id),
   ("bus:memory".data, ["bus:memory"]),
   ("dim".data, (dimmNodesOf env).map Node.id),
   ("bus:pci".data, busIf env.which_lspci "bus:pci"),
   ("pci".data, pciDevIds env),
   ("bus:usb".data, busIf env.which_lsusb "bus:usb"),
   ("usb".data, (usbNodesOf env).map Node.id),
   ("bus:storage".data, ["bus:storage"]),
   ("nvm".data, (nvmeNodesOf env).map Node.id),
   ("dis".data, (diskNodesOf env).map Node.id),
   ("bus:net".data, busIf env.which_ip "bus:net"),
   ("net".data, (netNodesOf env).map Node.id)]

theorem nodeIds_collect (env : Env) :
    nodeIds (collect_linux_hardware_graph env) = ((idGroups env).map Prod.snd).join := by
  unfold nodeIds
  rw [collect_eq]
  by_cases hu : env.which_lsusb <;> by_cases hi : env.which_ip <;>
    simp [idGroups, cpuSegNodes, memSegNodes, usbSegNodes, stoSegNodes, netSegNodes,
      memRootNode_id, pciSegGraph_ids, busIf, usbNodesOf, netNodesOf, netIfacesOf,
      rootNode, hu, hi, List.join]

theorem nodup_of_len_le_one {α : Type} : ∀ (l : List α), l.length ≤ 1 → l.Nodup := by
  intro l h
  match l with
  | [] => exact List.nodup_nil
  | [a] => simp
  | a :: b :: t => simp at h

theorem parse_lscpu_len (out : String) (w : Bool) (d : String) :
    (_parse_lscpu_json out w d).length ≤ 1 := by
  unfold _parse_lscpu_json
  split
  · simp
  · cases hj : jsonLoads out
    · simp
    · rename_i data
      cases data
      case obj kvs =>
        show (if (dictGet kvs "lscpu").isSome then
            match lscpuWalk (jsonSize (Json.obj kvs)) ((Json.obj kvs).getJ "lscpu") [] with
            | none => []
            | some entries => [lscpuNode entries w d]
          else []).length ≤ 1
        split
        · cases lscpuWalk (jsonSize (Json.obj kvs)) ((Json.obj kvs).getJ "lscpu") [] <;> simp
        · simp
      all_goals simp

theorem cpuNodesOf_len (env : Env) : (cpuNodesOf env).length ≤ 1 := by
  unfold cpuNodesOf
  split
  · exact parse_lscpu_len _ _ _
  · simp

theorem usbNodesOf_ids (env : Env) :
    ∀ n ∈ usbNodesOf env, ∃ t, n.id = "usb:" ++ t := by
  intro n hn
  unfold usbNodesOf at hn
  split at hn
  · exact parse_lsusb_ids _ n hn
  · exact absurd hn (List.not_mem_nil n)

theorem nvmeNodesOf_ids (env : Env) :
    ∀ n ∈ nvmeNodesOf env, ∃ t, n.id = "nvme:" ++ t := by
  intro n hn
  unfold nvmeNodesOf at hn
  split at hn
  · exact parse_nvme_ids _ n hn
  · exact absurd hn (List.not_mem_nil n)

theorem diskNodesOf_ids (env : Env) :
    ∀ n ∈ diskNodesOf env, ∃ t, n.id = "disk:" ++ t := by
  intro n hn
  unfold diskNodesOf at hn
  split at hn
  · exact parse_lsblk_ids _ n hn
  · exact absurd hn (List.not_mem_nil n)

theorem netNodesOf_ids (env : Env) :
    ∀ n ∈ netNodesOf env, ∃ t, n.id = "net:" ++ t := by
  intro n hn
  obtain ⟨iface, _, rfl⟩ := List.mem_map.mp hn
  exact netIfaceNode_id env iface

theorem pciDevIds_shape (env : Env) :
    ∀ s ∈ pciDevIds env, ∃ t, s = "pci:" ++ t := by
  intro s hs
  unfold pciDevIds at hs
  split at hs
  · obtain ⟨dev, _, rfl⟩ := List.mem_map.mp hs
    exact ⟨_, rfl⟩
  · exact absurd hs (List.not_mem_nil s)

theorem busIf_nodup (b : Bool) (s : String) : (busIf b s).Nodup := by
  unfold busIf
  split <;> simp

/-- All assembled node ids carry their group's family key. -/
theorem idGroups_keyed (env : Env) :
    ∀ p ∈ idGroups env, ∀ s ∈ p.2, idKey s = p.1 := by
  intro p hp
  simp only [idGroups, List.mem_cons, List.not_mem_nil, or_false] at hp
  rcases hp with rfl | rfl | rfl | rfl | rfl | rfl | rfl | rfl | rfl | rfl | rfl | rfl | rfl | rfl
  · intro s hs; rw [List.mem_singleton.mp hs]; decide
  · intro s hs
    obtain ⟨n, hn, rfl⟩ := List.mem_map.mp hs
    rw [cpuNodesOf_ids env n hn]; rfl
  · intro s hs
    obtain ⟨n, hn, rfl⟩ := List.mem_map.mp hs
    obtain ⟨t, ht⟩ := numaNodesOf_ids env n hn
    rw [ht]; exact idKey_numa t
  · intro s hs; rw [List.mem_singleton.mp hs]; decide
  · intro s hs
    obtain ⟨n, hn, rfl⟩ := List.mem_map.mp hs
    obtain ⟨t, ht⟩ := dimmNodesOf_ids env n hn
    rw [ht]; exact idKey_dimm t
  · intro s hs
    unfold busIf at hs
    split at hs
    · rw [List.mem_singleton.mp hs]; rfl
    · exact absurd hs (List.not_mem_nil s)
  · intro s hs
    obtain ⟨t, ht⟩ := pciDevIds_shape env s hs
    rw [ht]; exact idKey_pci t
  · intro s hs
    unfold busIf at hs
    split at hs
    · rw [List.mem_singleton.mp hs]; rfl
    · exact absurd hs (List.not_mem_nil s)
  · intro s hs
    obtain ⟨n, hn, rfl⟩ := List.mem_map.mp hs
    obtain ⟨t, ht⟩ := usbNodesOf_ids env n hn
    rw [ht]; exact idKey_usb t
  · intro s hs; rw [List.mem_singleton.mp hs]; decide
  · intro s hs
    obtain ⟨n, hn, rfl⟩ := List.mem_map.mp hs
    obtain ⟨t, ht⟩ := nvmeNodesOf_ids env n hn
    rw [ht]; exact idKey_nvme t
  · intro s hs
    obtain ⟨n, hn, rfl⟩ := List.mem_map.mp hs
    obtain ⟨t, ht⟩ := diskNodesOf_ids env n hn
    rw [ht]; exact idKey_disk t
  · intro s hs
    unfold busIf at hs
    split at hs
    · rw [List.mem_singleton.mp hs]; rfl
    · exact absurd hs (List.not_mem_nil s)
  · intro s hs
    obtain ⟨n, hn, rfl⟩ := List.mem_map.mp hs
    obtain ⟨t, ht⟩ := netNodesOf_ids env n hn
    rw [ht]; exact idKey_net t

/-- Per-family uniqueness hypotheses: the id lists that genuinely depend on
the tool outputs.  The run where two interface names truncate to one base
name, or two DIMM stanzas share a locator, falsifies the matching conjunct
(see the C2 counterexample). -/
def familiesNodup (env : Env) : Prop :=
  ((numaNodesOf env).map Node.id).Nodup ∧
  ((dimmNodesOf env).map Node.id).Nodup ∧
  (pciDevIds env).Nodup ∧
  ((usbNodesOf env).map Node.id).Nodup ∧
  ((nvmeNodesOf env).map Node.id).Nodup ∧
  ((diskNodesOf env).map Node.id).Nodup ∧
  ((netNodesOf env).map Node.id).Nodup

theorem nodeIds_nodup (env : Env) (h : familiesNodup env) :
    (nodeIds (collect_linux_hardware_graph env)).Nodup := by
  obtain ⟨h1, h2, h3, h4, h5, h6, h7⟩ := h
  rw [nodeIds_collect]
  apply nodup_keyed_join
  · simp only [idGroups, List.map_cons, List.map_nil]
    decide
  · exact idGroups_keyed env
  · intro p hp
    simp only [idGroups, List.mem_cons, List.not_mem_nil, or_false] at hp
    rcases hp with rfl | rfl | rfl | rfl | rfl | rfl | rfl | rfl | rfl | rfl | rfl | rfl | rfl | rfl
    · simp
    · exact nodup_of_len_le_one _ (by rw [List.length_map]; exact cpuNodesOf_len env)
    · exact h1
    · simp
    · exact h2
    · exact busIf_nodup _ _
    · exact h3
    · exact busIf_nodup _ _
    · exact h4
    · simp
    · exact h5
    · exact h6
    · exact busIf_nodup _ _
    · exact h7

theorem nodeIds_head (env : Env) :
    (nodeIds (collect_linux_hardware_graph env)).head? = some "root" := by
  rw [collect_eq]
  rfl

/-! ## Claim C1 -/

/-- C1: for every environment (any tool availability, any tool output
texts), every edge of the assembled graph has a source and a target that
are ids of nodes of the same graph: referential integrity. -/
theorem C1_referential_integrity (env : Env) :
    refIntegrity (collect_linux_hardware_graph env) :=
  refIntegrity_of_linked (linked_collect env)

/-! ## Claim C2 -/

/-- C2 (amended): whenever the per-family id lists are duplicate-free —
which the collision inputs named by the claim falsify — the assembled node
ids are unique and the contains edges form a tree rooted at "root": ids
Nodup, the single root heads the list, every edge's kind is "contains",
each node after the root is the target of exactly one edge whose source
precedes it, and every node is reachable from "root".  The fixed
generate_demo_graph satisfies the same uniqueness and tree properties
unconditionally. -/
theorem C2_unique_ids_and_tree (env : Env) (h : familiesNodup env) :
    ((nodeIds (collect_linux_hardware_graph env)).Nodup ∧
     containsTree (collect_linux_hardware_graph env) ∧
     ∀ x ∈ nodeIds (collect_linux_hardware_graph env),
       Relation.ReflTransGen (edgeStep (collect_linux_hardware_graph env)) "root" x) ∧
    ((nodeIds generate_demo_graph).Nodup ∧
     containsTree generate_demo_graph ∧
     ∀ x ∈ nodeIds generate_demo_graph,
       Relation.ReflTransGen (edgeStep generate_demo_graph) "root" x) := by
  have hnd := nodeIds_nodup env h
  have hct := containsTree_of_linked (linked_collect env) hnd (nodeIds_head env)
  have hdemo : containsTree generate_demo_graph := by
    unfold containsTree
    refine ⟨by decide, by decide, by decide, by decide, by decide⟩
  exact ⟨⟨hnd, hct, reach_of_containsTree hct⟩,
    ⟨hdemo.1, hdemo, reach_of_containsTree hdemo⟩⟩

/-- An environment where two ip-link interface names truncate to one base
name under the "@" rule. -/
def envC2 : Env :=
  { env0 with
    which_ip := true,
    ip_out := "a@x UP aa:bb:cc:dd:ee:ff\na@y UP aa:bb:cc:dd:ee:01" }

/-- C2 counterexample: on the truncating input both interfaces get id
"net:a" and uniqueness of node ids fails, refuting the claim's "for every
combination of tool output texts". -/
theorem C2_counterexample :
    ¬ (nodeIds (collect_linux_hardware_graph envC2)).Nodup := by decide

/-- An environment with two distinct interfaces, satisfying every
per-family uniqueness hypothesis. -/
def envC2w : Env :=
  { env0 with
    which_ip := true,
    ip_out := "eth0 UP aa:bb:cc:dd:ee:ff\nlo UNKNOWN 00:00:00:00:00:00" }

theorem C2_witness :
    familiesNodup envC2w ∧
    (((nodeIds (collect_linux_hardware_graph envC2w)).Nodup ∧
      containsTree (collect_linux_hardware_graph envC2w) ∧
      ∀ x ∈ nodeIds (collect_linux_hardware_graph envC2w),
        Relation.ReflTransGen (edgeStep (collect_linux_hardware_graph envC2w)) "root" x) ∧
     ((nodeIds generate_demo_graph).Nodup ∧
      containsTree generate_demo_graph ∧
      ∀ x ∈ nodeIds generate_demo_graph,
        Relation.ReflTransGen (edgeStep generate_demo_graph) "root" x)) :=
  ⟨by unfold familiesNodup; decide, C2_unique_ids_and_tree envC2w (by unfold familiesNodup; decide)⟩

/-! ## Claim C5 -/

theorem listIsPre_cons {a : Char} {as bs : List Char}
    (h : listIsPre (a :: as) bs = true) :
    ∃ cs, bs = a :: cs ∧ listIsPre as cs = true := by
  cases bs with
  | nil => simp [listIsPre] at h
  | cons b cs =>
    simp only [listIsPre, Bool.and_eq_true, decide_eq_true_eq] at h
    exact ⟨cs, by rw [h.1], h.2⟩

theorem idKey_of_pre_nvme (s : String) (h : listIsPre "nvme:".data s.data = true) :
    idKey s = "nvm".data := by
  obtain ⟨c1, h1, h⟩ := listIsPre_cons h
  obtain ⟨c2, h2, h⟩ := listIsPre_cons h
  obtain ⟨c3, h3, h⟩ := listIsPre_cons h
  obtain ⟨c4, h4, _⟩ := listIsPre_cons h
  unfold idKey
  rw [h1, h2, h3, h4]
  rfl

theorem idKey_of_pre_disk (s : String) (h : listIsPre "disk:".data s.data = true) :
    idKey s = "dis".data := by
  obtain ⟨c1, h1, h⟩ := listIsPre_cons h
  obtain ⟨c2, h2, h⟩ := listIsPre_cons h
  obtain ⟨c3, h3, _⟩ := listIsPre_cons h
  unfold idKey
  rw [h1, h2, h3]
  rfl

theorem idKey_of_pre_dimm (s : String) (h : listIsPre "dimm:".data s.data = true) :
    idKey s = "dim".data := by
  obtain ⟨c1, h1, h⟩ := listIsPre_cons h
  obtain ⟨c2, h2, h⟩ := listIsPre_cons h
  obtain ⟨c3, h3, _⟩ := listIsPre_cons h
  unfold idKey
  rw [h1, h2, h3]
  rfl

theorem idKey_of_pre_usb (s : String) (h : listIsPre "usb:".data s.data = true) :
    idKey s = "usb".data := by
  obtain ⟨c1, h1, h⟩ := listIsPre_cons h
  obtain ⟨c2, h2, h⟩ := listIsPre_cons h
  obtain ⟨c3, h3, _⟩ := listIsPre_cons h
  unfold idKey
  rw [h1, h2, h3]
  rfl

theorem idKey_of_pre_net (s : String) (h : listIsPre "net:".data s.data = true) :
    idKey s = "net".data := by
  obtain ⟨c1, h1, h⟩ := listIsPre_cons h
  obtain ⟨c2, h2, h⟩ := listIsPre_cons h
  obtain ⟨c3, h3, _⟩ := listIsPre_cons h
  unfold idKey
  rw [h1, h2, h3]
  rfl

theorem idKey_of_pre_pci (s : String) (h : listIsPre "pci:".data s.data = true) :
    idKey s = "pci".data := by
  obtain ⟨c1, h1, h⟩ := listIsPre_cons h
  obtain ⟨c2, h2, h⟩ := listIsPre_cons h
  obtain ⟨c3, h3, _⟩ := listIsPre_cons h
  unfold idKey
  rw [h1, h2, h3]
  rfl

theorem idKey_of_pre_numa (s : String) (h : listIsPre "numa:".data s.data = true) :
    idKey s = "num".data := by
  obtain ⟨c1, h1, h⟩ := listIsPre_cons h
  obtain ⟨c2, h2, h⟩ := listIsPre_cons h
  obtain ⟨c3, h3, _⟩ := listIsPre_cons h
  unfold idKey
  rw [h1, h2, h3]
  rfl

/-- No id of the given family key occurs among the assembled node ids when
that family's group is empty. -/
theorem no_key_ids (env : Env) (key : List Char)
    (hgrp : ∀ p ∈ idGroups env, p.1 = key → p.2 = []) :
    ∀ s ∈ nodeIds (collect_linux_hardware_graph env), idKey s ≠ key := by
  intro s hs hkey
  rw [nodeIds_collect] at hs
  obtain ⟨l, hl, hsl⟩ := List.mem_join.mp hs
  obtain ⟨p, hp, hpl⟩ := List.mem_map.mp hl
  have h1 := idGroups_keyed env p hp s (by rw [hpl]; exact hsl)
  have h2 := hgrp p hp (by rw [← h1, hkey])
  rw [h2] at hpl
  rw [← hpl] at hsl
  exact absurd hsl (List.not_mem_nil s)

theorem grp_nvme (env : Env) (h : env.which_nvme = false) :
    ∀ p ∈ idGroups env, p.1 = "nvm".data → p.2 = [] := by
  intro p hp hq
  simp only [idGroups, List.mem_cons, List.not_mem_nil, or_false] at hp
  rcases hp with rfl | rfl | rfl | rfl | rfl | rfl | rfl | rfl | rfl | rfl | rfl | rfl | rfl | rfl <;>
    first
      | (simp [nvmeNodesOf, h]; done)
      | simp at hq

theorem grp_disk (env : Env) (h : env.which_lsblk = false) :
    ∀ p ∈ idGroups env, p.1 = "dis".data → p.2 = [] := by
  intro p hp hq
  simp only [idGroups, List.mem_cons, List.not_mem_nil, or_false] at hp
  rcases hp with rfl | rfl | rfl | rfl | rfl | rfl | rfl | rfl | rfl | rfl | rfl | rfl | rfl | rfl <;>
    first
      | (simp [diskNodesOf, h]; done)
      | simp at hq

theorem grp_dimm (env : Env) (h : env.which_dmidecode = false) :
    ∀ p ∈ idGroups env, p.1 = "dim".data → p.2 = [] := by
  intro p hp hq
  simp only [idGroups, List.mem_cons, List.not_mem_nil, or_false] at hp
  rcases hp with rfl | rfl | rfl | rfl | rfl | rfl | rfl | rfl | rfl | rfl | rfl | rfl | rfl | rfl <;>
    first
      | (simp [dimmNodesOf, h]; done)
      | simp at hq

theorem grp_usb (env : Env) (h : env.which_lsusb = false) :
    ∀ p ∈ idGroups env, p.1 = "usb".data → p.2 = [] := by
  intro p hp hq
  simp only [idGroups, List.mem_cons, List.not_mem_nil, or_false] at hp
  rcases hp with rfl | rfl | rfl | rfl | rfl | rfl | rfl | rfl | rfl | rfl | rfl | rfl | rfl | rfl <;>
    first
      | (simp [usbNodesOf, h]; done)
      | simp at hq

theorem grp_bus_usb (env : Env) (h : env.which_lsusb = false) :
    ∀ p ∈ idGroups env, p.1 = "bus:usb".data → p.2 = [] := by
  intro p hp hq
  simp only [idGroups, List.mem_cons, List.not_mem_nil, or_false] at hp
  rcases hp with rfl | rfl | rfl | rfl | rfl | rfl | rfl | rfl | rfl | rfl | rfl | rfl | rfl | rfl <;>
    first
      | (simp [busIf, h]; done)
      | simp at hq

theorem grp_net (env : Env) (h : env.which_ip = false) :
    ∀ p ∈ idGroups env, p.1 = "net".data → p.2 = [] := by
  intro p hp hq
  simp only [idGroups, List.mem_cons, List.not_mem_nil, or_false] at hp
  rcases hp with rfl | rfl | rfl | rfl | rfl | rfl | rfl | rfl | rfl | rfl | rfl | rfl | rfl | rfl <;>
    first
      | (simp [netNodesOf, netIfacesOf, h]; done)
      | simp at hq

theorem grp_bus_net (env : Env) (h : env.which_ip = false) :
    ∀ p ∈ idGroups env, p.1 = "bus:net".data → p.2 = [] := by
  intro p hp hq
  simp only [idGroups, List.mem_cons, List.not_mem_nil, or_false] at hp
  rcases hp with rfl | rfl | rfl | rfl | rfl | rfl | rfl | rfl | rfl | rfl | rfl | rfl | rfl | rfl <;>
    first
      | (simp [busIf, h]; done)
      | simp at hq

theorem grp_pci (env : Env) (h : env.which_lspci = false) :
    ∀ p ∈ idGroups env, p.1 = "pci".data → p.2 = [] := by
  intro p hp hq
  simp only [idGroups, List.mem_cons, List.not_mem_nil, or_false] at hp
  rcases hp with rfl | rfl | rfl | rfl | rfl | rfl | rfl | rfl | rfl | rfl | rfl | rfl | rfl | rfl <;>
    first
      | (simp [pciDevIds, h]; done)
      | simp at hq

theorem grp_bus_pci (env : Env) (h : env.which_lspci = false) :
    ∀ p ∈ idGroups env, p.1 = "bus:pci".data → p.2 = [] := by
  intro p hp hq
  simp only [idGroups, List.mem_cons, List.not_mem_nil, or_false] at hp
  rcases hp with rfl | rfl | rfl | rfl | rfl | rfl | rfl | rfl | rfl | rfl | rfl | rfl | rfl | rfl <;>
    first
      | (simp [busIf, h]; done)
      | simp at hq

theorem grp_cpu (env : Env) (h : env.which_lscpu = false) :
    ∀ p ∈ idGroups env, p.1 = "cpu".data → p.2 = [] := by
  intro p hp hq
  simp only [idGroups, List.mem_cons, List.not_mem_nil, or_false] at hp
  rcases hp with rfl | rfl | rfl | rfl | rfl | rfl | rfl | rfl | rfl | rfl | rfl | rfl | rfl | rfl <;>
    first
      | (simp [cpuNodesOf, h]; done)
      | simp at hq

theorem grp_numa (env : Env) (h : env.which_lscpu = false) :
    ∀ p ∈ idGroups env, p.1 = "num".data → p.2 = [] := by
  intro p hp hq
  simp only [idGroups, List.mem_cons, List.not_mem_nil, or_false] at hp
  rcases hp with rfl | rfl | rfl | rfl | rfl | rfl | rfl | rfl | rfl | rfl | rfl | rfl | rfl | rfl <;>
    first
      | (simp [numaNodesOf, cpuNodesOf, h]; done)
      | simp at hq

/-- Source absence at the graph level: no node id and no edge endpoint
carries the family prefix. -/
def noFamily (g : Graph) (pre : List Char) : Prop :=
  (∀ s ∈ nodeIds g, listIsPre pre s.data = false) ∧
  ∀ e ∈ g.edges, listIsPre pre e.source.data = false ∧ listIsPre pre e.target.data = false

/-- The id appears as no node id and no edge endpoint. -/
def noId (g : Graph) (x : String) : Prop :=
  x ∉ nodeIds g ∧ ∀ e ∈ g.edges, e.source ≠ x ∧ e.target ≠ x

theorem noFamily_of_nodes {g : Graph} (hri : refIntegrity g) (pre : List Char)
    (h : ∀ s ∈ nodeIds g, listIsPre pre s.data = false) : noFamily g pre :=
  ⟨h, fun e he => ⟨h e.source (hri e he).1, h e.target (hri e he).2⟩⟩

theorem noId_of_nodes {g : Graph} (hri : refIntegrity g) (x : String)
    (h : x ∉ nodeIds g) : noId g x :=
  ⟨h, fun e he => ⟨fun hx => h (hx ▸ (hri e he).1), fun hx => h (hx ▸ (hri e he).2)⟩⟩

theorem noPre_of_key (env : Env) (pre key : List Char)
    (hpk : ∀ s, listIsPre pre s.data = true → idKey s = key)
    (hgrp : ∀ p ∈ idGroups env, p.1 = key → p.2 = []) :
    ∀ s ∈ nodeIds (collect_linux_hardware_graph env), listIsPre pre s.data = false := by
  intro s hs
  cases hc : listIsPre pre s.data
  · rfl
  · exact absurd (hpk s hc) (no_key_ids env key hgrp s hs)

/-- C5 (amended): for every device-producing source whose tool is
unavailable the assembler emits no node and no edge for that source — per
family, no node id and no edge endpoint lies in the source's id family and
the source's bus node is entirely absent — while the memory and storage
bus nodes, with their root edges, are appended unconditionally.  The
unconditional bus:storage node is what refutes the claim as stated. -/
theorem C5_absent_storage_tools (env : Env) :
    (env.which_nvme = false → noFamily (collect_linux_hardware_graph env) "nvme:".data) ∧
    (env.which_lsblk = false → noFamily (collect_linux_hardware_graph env) "disk:".data) ∧
    (env.which_dmidecode = false → noFamily (collect_linux_hardware_graph env) "dimm:".data) ∧
    (env.which_lsusb = false → noFamily (collect_linux_hardware_graph env) "usb:".data ∧
      noId (collect_linux_hardware_graph env) "bus:usb") ∧
    (env.which_ip = false → noFamily (collect_linux_hardware_graph env) "net:".data ∧
      noId (collect_linux_hardware_graph env) "bus:net") ∧
    (env.which_lspci = false → noFamily (collect_linux_hardware_graph env) "pci:".data ∧
      noId (collect_linux_hardware_graph env) "bus:pci") ∧
    (env.which_lscpu = false → noFamily (collect_linux_hardware_graph env) "numa:".data ∧
      noId (collect_linux_hardware_graph env) "cpu:0") ∧
    "bus:memory" ∈ nodeIds (collect_linux_hardware_graph env) ∧
    "bus:storage" ∈ nodeIds (collect_linux_hardware_graph env) ∧
    mkEdge "root" "contains" (memRootNode env) ∈ (collect_linux_hardware_graph env).edges ∧
    mkEdge "root" "contains" ⟨"bus:storage", "bus", "Storage", []⟩
      ∈ (collect_linux_hardware_graph env).edges := by
  have hri := refIntegrity_of_linked (linked_collect env)
  refine ⟨fun h => noFamily_of_nodes hri _
      (noPre_of_key env _ _ (fun s => idKey_of_pre_nvme s) (grp_nvme env h)),
    fun h => noFamily_of_nodes hri _
      (noPre_of_key env _ _ (fun s => idKey_of_pre_disk s) (grp_disk env h)),
    fun h => noFamily_of_nodes hri _
      (noPre_of_key env _ _ (fun s => idKey_of_pre_dimm s) (grp_dimm env h)),
    fun h => ⟨noFamily_of_nodes hri _
        (noPre_of_key env _ _ (fun s => idKey_of_pre_usb s) (grp_usb env h)),
      noId_of_nodes hri _
        (fun hmem => no_key_ids env _ (grp_bus_usb env h) "bus:usb" hmem (by decide))⟩,
    fun h => ⟨noFamily_of_nodes hri _
        (noPre_of_key env _ _ (fun s => idKey_of_pre_net s) (grp_net env h)),
      noId_of_nodes hri _
        (fun hmem => no_key_ids env _ (grp_bus_net env h) "bus:net" hmem (by decide))⟩,
    fun h => ⟨noFamily_of_nodes hri _
        (noPre_of_key env _ _ (fun s => idKey_of_pre_pci s) (grp_pci env h)),
      noId_of_nodes hri _
        (fun hmem => no_key_ids env _ (grp_bus_pci env h) "bus:pci" hmem (by decide))⟩,
    fun h => ⟨noFamily_of_nodes hri _
        (noPre_of_key env _ _ (fun s => idKey_of_pre_numa s) (grp_numa env h)),
      noId_of_nodes hri _
        (fun hmem => no_key_ids env _ (grp_cpu env h) "cpu:0" hmem (by decide))⟩,
    ?_, ?_, ?_, ?_⟩
  · rw [nodeIds_collect]
    refine List.mem_join.mpr ⟨["bus:memory"], ?_, by simp⟩
    simp [idGroups]
  · rw [nodeIds_collect]
    refine List.mem_join.mpr ⟨["bus:storage"], ?_, by simp⟩
    simp [idGroups]
  · rw [collect_eq]
    simp [memSegEdges, List.mem_append]
  · rw [collect_eq]
    simp [stoSegEdges, List.mem_append]

/-- C5 counterexample: with every tool unavailable (the baseline
environment) the graph still contains the storage bus node, refuting "no
node is emitted for an absent source". -/
theorem C5_counterexample :
    "bus:storage" ∈ nodeIds (collect_linux_hardware_graph env0) := by decide

/-! ## Claim C3 -/

/-- An environment whose vmm listing (lspci -Dvmmnnk, domain-prefixed
slots) and verbose listing (lspci -vv, domain-less slots) describe the
same device with link status present. -/
def envC3 : Env :=
  { env0 with
    which_lspci := true,
    lspci_vmm_out := "Slot:\t0000:65:00.0\nClass:\tVGA compatible controller\n",
    lspci_vv_out := "65:00.0 VGA compatible controller\n\t\tLnkSta:\tSpeed 16GT/s, Width x16\n" }

/-- C3: the verbose parser extracts pcie_speed and pcie_width under the
domain-less key "65:00.0", the assembler builds the device node from the
domain-prefixed vmm slot "0000:65:00.0", and the lookup by the full slot
misses: no node of the assembled graph carries either property.  This
documents the code bug; the specified behaviour (properties attached)
never occurs for -D-prefixed slots. -/
theorem C3_vv_links_never_applied :
    _parse_lspci_vv_links envC3.lspci_vv_out
      = [("65:00.0", [("pcie_speed", "16GT/s"), ("pcie_width", "x16")])] ∧
    "pci:0000:65:00.0" ∈ nodeIds (collect_linux_hardware_graph envC3) ∧
    ∀ n ∈ (collect_linux_hardware_graph envC3).nodes,
      dictGet n.properties "pcie_speed" = none ∧
      dictGet n.properties "pcie_width" = none := by
  refine ⟨by decide, by decide, by decide⟩

/-! ## Claim C4 -/

/-- C4 (amended): _parse_lscpu_json is not a function of its input text
alone — inside the function the source probes the host for dmidecode and
runs it, modelled by the two extra parameters.  With dmidecode unavailable
the dmidecode text is never read, so the result is a function of the lscpu
text alone. -/
theorem C4_lscpu_dmidecode_off_pure (out : String) (d d' : String) :
    _parse_lscpu_json out false d = _parse_lscpu_json out false d' := by
  unfold _parse_lscpu_json
  split
  · rfl
  · cases jsonLoads out
    · rfl
    · rename_i data
      cases data <;> rfl

def lscpuC4 : String := "\x7b\"lscpu\": [\x7b\"field\": \"Model name:\", \"data\": \"TestCPU\"\x7d]\x7d"

def dmiC4 : String := "Max Speed: 3000 MHz"

/-- C4 counterexample: the same lscpu text parsed on two hosts — one where
dmidecode is available and reports a processor speed, one where it is not —
yields different nodes (base_mhz present versus absent), refuting purity of
the parser in its text input. -/
theorem C4_counterexample :
    _parse_lscpu_json lscpuC4 true dmiC4 ≠ _parse_lscpu_json lscpuC4 false "" := by
  intro h
  have h1 : (_parse_lscpu_json lscpuC4 true dmiC4).map
      (fun n => dictGet n.properties "base_mhz") = [some "3000"] := by decide
  have h2 : (_parse_lscpu_json lscpuC4 false "").map
      (fun n => dictGet n.properties "base_mhz") = [none] := by decide
  rw [h] at h1
  rw [h1] at h2
  exact absurd h2 (by decide)

/-! ## Claim C6 -/

/-- C6 (amended): the DIMM builder always emits the manufacturer,
part_number and serial keys with the raw dmidecode value, the empty string
when the stanza lacks the field — empty-string placeholders, not absent
keys; the speed key by contrast is present exactly when its value is
non-empty.  The NVMe builder likewise always emits model, serial and
firmware keys. -/
theorem C6_placeholder_keys (dev : List (String × String)) (idx : Nat)
    (jdev : Json) (k : Nat) :
    dictGet (dimmNode dev idx).properties "manufacturer"
      = some (dictGetD dev "Manufacturer" "") ∧
    dictGet (dimmNode dev idx).properties "part_number"
      = some (dictGetD dev "Part Number" "") ∧
    dictGet (dimmNode dev idx).properties "serial"
      = some (dictGetD dev "Serial Number" "") ∧
    (dictGet (dimmNode dev idx).properties "speed" = none ↔ dimmSpeed dev = "") ∧
    (dictGet (nvmeNode jdev k).properties "serial").isSome = true ∧
    (dictGet (nvmeNode jdev k).properties "firmware").isSome = true := by
  have hprops : (dimmNode dev idx).properties =
      [("slot", pyOrS (pyOrS (pyGetS dev "Locator") (pyGetS dev "Bank Locator"))
          ("DIMM-" ++ natRepr idx)),
       ("size_gb", match dimmSizeGB (dictGetD dev "Size" "") with
         | some q => fmt1 q
         | none => dictGetD dev "Size" ""),
       ("type", dictGetD dev "Type" "?")]
        ++ (if dimmSpeed dev ≠ "" then [("speed", dimmSpeed dev)] else [])
        ++ [("manufacturer", dictGetD dev "Manufacturer" ""),
            ("part_number", dictGetD dev "Part Number" ""),
            ("serial", dictGetD dev "Serial Number" "")] := rfl
  by_cases hs : dimmSpeed dev = ""
  · rw [if_neg (fun hc => hc hs)] at hprops
    rw [hprops]
    exact ⟨rfl, rfl, rfl, ⟨fun _ => hs, fun _ => rfl⟩, rfl, rfl⟩
  · rw [if_pos hs] at hprops
    rw [hprops]
    exact ⟨rfl, rfl, rfl, ⟨fun he => Option.noConfusion he, fun he => absurd he hs⟩, rfl, rfl⟩

def dmiC6 : String := "Memory Device\n\tSize: 8192 Megabytes\n\tLocator: DIMM A\n"

/-- C6 counterexample: a dmidecode stanza with no Manufacturer, Part Number
or Serial Number fields yields a DIMM node whose manufacturer, part_number
and serial keys are present with empty-string values, refuting "absent
information is an absent key, never an empty-string placeholder" (these
are not among the spec's best-effort summary fields). -/
theorem C6_counterexample :
    (_parse_dmidecode_memory dmiC6).map
        (fun n => (dictGet n.properties "manufacturer",
                   dictGet n.properties "part_number",
                   dictGet n.properties "serial"))
      = [(some "", some "", some "")] := by decide

/-! ## Claim C7 -/

/-- C7: every per-tool parser maps the empty string (the _run result when a
tool fails or produces nothing) to its empty result — empty list, empty
record pair, or none for the scalar parsers — and in this embedding every
parser is total, so no exception is possible. -/
theorem C7_empty_input (w : Bool) (d : String) :
    _parse_lspci_mm "" = [] ∧
    _parse_lspci_vmm "" = [] ∧
    _parse_lspci_vv_links "" = [] ∧
    _parse_nvme_list_json "" = [] ∧
    _parse_lsblk_json "" = [] ∧
    _parse_ip_link_brief "" = [] ∧
    _parse_ethtool_i "" = [] ∧
    _parse_ethtool_speed "" = none ∧
    _parse_lsusb "" = [] ∧
    _parse_cpuinfo_current_mhz "" = none ∧
    _parse_lscpu_json "" w d = [] ∧
    _parse_meminfo_total_kb "" = none ∧
    _parse_dmidecode_memory "" = [] ∧
    _parse_dmidecode_processor "" = (none, none) ∧
    _parse_rocm_smi_json "" = [] :=
  ⟨rfl, rfl, rfl, rfl, rfl, rfl, rfl, rfl, rfl, rfl, rfl, rfl, rfl, rfl, rfl⟩

theorem C7_witness :
    _parse_lspci_mm "" = [] ∧
    _parse_lspci_vmm "" = [] ∧
    _parse_lspci_vv_links "" = [] ∧
    _parse_nvme_list_json "" = [] ∧
    _parse_lsblk_json "" = [] ∧
    _parse_ip_link_brief "" = [] ∧
    _parse_ethtool_i "" = [] ∧
    _parse_ethtool_speed "" = none ∧
    _parse_lsusb "" = [] ∧
    _parse_cpuinfo_current_mhz "" = none ∧
    _parse_lscpu_json "" true "Max Speed: 3000 MHz" = [] ∧
    _parse_meminfo_total_kb "" = none ∧
    _parse_dmidecode_memory "" = [] ∧
    _parse_dmidecode_processor "" = (none, none) ∧
    _parse_rocm_smi_json "" = [] :=
  C7_empty_input true "Max Speed: 3000 MHz"

/-! ## Claim C8 -/

/-- An environment with one PCI device at the domain-prefixed slot
0000:65:00.0 and an nvidia-smi report line referencing bus id
0000:65:00.0. -/
def envC8 : Env :=
  { env0 with
    which_lspci := true,
    lspci_vmm_out := "Slot:\t0000:65:00.0\nClass:\tVGA compatible controller\nVendor:\tNVIDIA Corporation\nDevice:\tAD102\n",
    which_nvidia_smi := true,
    nvidia_smi_out := "0000:65:00.0, NVIDIA GeForce RTX 4090, 550.54, 24564, 45, 120.5, 450.0, 10\n" }

/-- The same environment with the vendor tool unavailable: the unenriched
baseline. -/
def envC8off : Env := { envC8 with which_nvidia_smi := false }

/-- C8: GPU enrichment mutates exactly the node registered for slot
0000:65:00.0 — located through the 7-character tail key — overwriting its
label with the reported product name and merging the reported properties,
while the graph's node ids and its edges are exactly those of the
unenriched run: no node and no edge is added. -/
theorem C8_gpu_enrichment_in_place :
    ((collect_linux_hardware_graph envC8).nodes.map Node.id
      = (collect_linux_hardware_graph envC8off).nodes.map Node.id) ∧
    ((collect_linux_hardware_graph envC8).edges
      = (collect_linux_hardware_graph envC8off).edges) ∧
    (((collect_linux_hardware_graph envC8).nodes.filter
        (fun n => n.id == "pci:0000:65:00.0")).map
        (fun n => (n.kind, n.label,
          dictGet n.properties "driver", dictGet n.properties "vram_mb"))
      = [("gpu-device", "NVIDIA GeForce RTX 4090", some "550.54", some "24564")]) ∧
    (((collect_linux_hardware_graph envC8off).nodes.filter
        (fun n => n.id == "pci:0000:65:00.0")).map
        (fun n => (n.label, dictGet n.properties "driver"))
      = [("NVIDIA Corporation AD102", none)]) := by
  exact ⟨by decide, by decide, by decide, by decide⟩

/-! ## Claim C9 -/

theorem dictGet_dictSet_self {α : Type} : ∀ (d : List (String × α)) (k : String) (v : α),
    dictGet (dictSet d k v) k = some v := by
  intro d k v
  induction d with
  | nil =>
    show ((([(k, v)] : List (String × α)).find? (fun p => p.1 == k)).map Prod.snd) = some v
    rw [List.find?_cons_of_pos _ (by simp)]
    rfl
  | cons p rest ih =>
    obtain ⟨k0, v0⟩ := p
    show dictGet (if k0 = k then (k, v) :: rest else (k0, v0) :: dictSet rest k v) k = some v
    split
    · show ((((k, v) :: rest).find? (fun p => p.1 == k)).map Prod.snd) = some v
      rw [List.find?_cons_of_pos _ (by simp)]
      rfl
    · rename_i hne
      show ((((k0, v0) :: dictSet rest k v).find? (fun p => p.1 == k)).map Prod.snd) = some v
      rw [List.find?_cons_of_neg _ (by simpa using hne)]
      exact ih

/-- C9 (amended): a net-interface node carries speed_mbps exactly when the
ethtool speed parser yields a non-zero value n, and then with value str(n);
the parser itself takes any Mb/s match anywhere in the text first — even
"Speed: 0Mb/s" — and consults Gb/s lines only when no Mb/s match exists,
so a positive Gb/s line after any Mb/s line is ignored (see the
counterexample).  The hypothesis on the base properties rules out a
speed_mbps key smuggled in through the interface record or the ethtool -i
pass, neither of which produces one in the source. -/
theorem C9_speed_key (env : Env) (iface : List (String × String)) (nm : String)
    (hif : dictGet iface "ifname" = some nm)
    (hw : env.which_ethtool = true) (hnm : nm ≠ "")
    (hbase : dictGet (dictUpdate (iface.filter (fun p => p.1 ≠ "ifname"))
        (_parse_ethtool_i (env.ethtool_i_out nm))) "speed_mbps" = none) :
    dictGet (netIfaceNode env iface).properties "speed_mbps" =
      match _parse_ethtool_speed (env.ethtool_out nm) with
      | some n => if n ≠ 0 then some (natRepr n) else none
      | none => none := by
  simp only [netIfaceNode, hif, hw]
  cases hsp : _parse_ethtool_speed (env.ethtool_out nm) with
  | none => simpa [hsp, hnm] using hbase
  | some n =>
    by_cases hn : n = 0
    · simp only [hsp, hn, hnm]
      simpa [hnm] using hbase
    · simp only [hsp, hnm, hn]
      simp [hnm, hn, dictGet_dictSet_self]

/-- An environment whose ethtool text reports 0Mb/s before a positive
Gb/s reading. -/
def envC9 : Env :=
  { env0 with
    which_ip := true,
    ip_out := "eth0 UP aa:bb:cc:dd:ee:ff",
    which_ethtool := true,
    ethtool_out := fun _ => "Speed: 0Mb/s\nSpeed: 10Gb/s" }

/-- C9 counterexample: the ethtool text contains "Speed: 10Gb/s" with a
strictly positive value, yet the assembled interface node has no
speed_mbps key — the zero Mb/s match anywhere in the text wins and zero is
then dropped — refuting the claim's if-and-only-if. -/
theorem C9_counterexample :
    searchFrom speedGbAt (envC9.ethtool_out "eth0").data = some 10 ∧
    ((collect_linux_hardware_graph envC9).nodes.filter
        (fun n => n.id == "net:eth0")).map
        (fun n => dictGet n.properties "speed_mbps") = [none] := by
  exact ⟨by decide, by decide⟩

/-- An environment whose ethtool text reports a positive Mb/s speed. -/
def envC9w : Env :=
  { env0 with
    which_ethtool := true,
    ethtool_out := fun _ => "Speed: 2500Mb/s" }

theorem C9_witness :
    dictGet [("ifname", "eth0"), ("state", "UP")] "ifname" = some "eth0" ∧
    envC9w.which_ethtool = true ∧
    ("eth0" : String) ≠ "" ∧
    dictGet (dictUpdate (([("ifname", "eth0"), ("state", "UP")] : List (String × String)).filter
        (fun p => p.1 ≠ "ifname"))
        (_parse_ethtool_i (envC9w.ethtool_i_out "eth0"))) "speed_mbps" = none ∧
    dictGet (netIfaceNode envC9w [("ifname", "eth0"), ("state", "UP")]).properties "speed_mbps" =
      match _parse_ethtool_speed (envC9w.ethtool_out "eth0") with
      | some n => if n ≠ 0 then some (natRepr n) else none
      | none => none :=
  ⟨rfl, rfl, by decide, by decide,
   C9_speed_key envC9w [("ifname", "eth0"), ("state", "UP")] "eth0" rfl rfl
     (by decide) (by decide)⟩

/-! ## Claim C10 -/

/-- The devices list the NVMe parser folds over. -/
def nvmeDevicesOf (out : String) : List Json :=
  if out = "" then []
  else match jsonLoads out with
    | none => []
    | some data => nvmeDevices data

theorem parse_nvme_eq2 (out : String) :
    _parse_nvme_list_json out = (nvmeDevicesOf out).foldl nvmeFoldStep [] := by
  rw [parse_nvme_eq]
  unfold nvmeDevicesOf
  split
  · rfl
  · cases jsonLoads out <;> rfl

/-- The NVMe node list emitted from position k onward: every record emits
exactly one node, so the node index equals the count emitted before it. -/
def nvmeNodesFrom : Nat → List Json → List Node
  | _, [] => []
  | k, d :: ds => nvmeNode d k :: nvmeNodesFrom (k + 1) ds

theorem nvmeFold_from : ∀ (devs : List Json) (ns : List Node),
    devs.foldl nvmeFoldStep ns = ns ++ nvmeNodesFrom ns.length devs := by
  intro devs
  induction devs with
  | nil => intro ns; simp [nvmeNodesFrom]
  | cons d ds ih =>
    intro ns
    show ds.foldl nvmeFoldStep (nvmeFoldStep ns d) = _
    rw [show nvmeFoldStep ns d = ns ++ [nvmeNode d ns.length] from rfl, ih,
      List.append_assoc, List.length_append]
    rfl

theorem nvmeNodesFrom_get : ∀ (devs : List Json) (b k : Nat),
    (nvmeNodesFrom b devs).get? k = (devs.get? k).map (fun d => nvmeNode d (b + k)) := by
  intro devs
  induction devs with
  | nil => intro b k; simp [nvmeNodesFrom]
  | cons d ds ih =>
    intro b k
    cases k with
    | zero => simp [nvmeNodesFrom]
    | succ k =>
      show (nvmeNodesFrom (b + 1) ds).get? k = (ds.get? k).map (fun d => nvmeNode d (b + (k + 1)))
      rw [ih (b + 1) k]
      have he : b + 1 + k = b + (k + 1) := by omega
      rw [he]

theorem natReprAux_append : ∀ (fuel n : Nat) (acc : List Char),
    natReprAux fuel n acc = natReprAux fuel n [] ++ acc := by
  intro fuel
  induction fuel with
  | zero =>
    intro n acc
    cases n <;> rfl
  | succ fuel ih =>
    intro n acc
    cases n with
    | zero => rfl
    | succ n =>
      show natReprAux fuel ((n + 1) / 10) (Nat.digitChar ((n + 1) % 10) :: acc) =
        natReprAux fuel ((n + 1) / 10) [Nat.digitChar ((n + 1) % 10)] ++ acc
      rw [ih ((n + 1) / 10) (Nat.digitChar ((n + 1) % 10) :: acc),
        ih ((n + 1) / 10) [Nat.digitChar ((n + 1) % 10)]]
      simp

theorem digitsToNat_append_digit (xs : List Char) (c : Char) :
    digitsToNat (xs ++ [c]) = digitsToNat xs * 10 + (c.toNat - 48) := by
  unfold digitsToNat
  rw [List.foldl_append]
  rfl

theorem digitChar_toNat (r : Nat) (h : r < 10) : (Nat.digitChar r).toNat - 48 = r := by
  interval_cases r <;> rfl

theorem natReprAux_val : ∀ (fuel n : Nat), n ≤ fuel →
    digitsToNat (natReprAux fuel n []) = n := by
  intro fuel
  induction fuel with
  | zero =>
    intro n hn
    interval_cases n
    rfl
  | succ fuel ih =>
    intro n hn
    cases n with
    | zero => rfl
    | succ n =>
      have hq : (n + 1) / 10 ≤ fuel := by
        have h2 := Nat.div_lt_self (Nat.succ_pos n) (by omega : 1 < 10)
        omega
      have step : natReprAux (fuel + 1) (n + 1) [] =
          natReprAux fuel ((n + 1) / 10) [] ++ [Nat.digitChar ((n + 1) % 10)] := by
        show natReprAux fuel ((n + 1) / 10) [Nat.digitChar ((n + 1) % 10)] = _
        rw [natReprAux_append]
      rw [step, digitsToNat_append_digit, ih ((n + 1) / 10) hq,
        digitChar_toNat _ (Nat.mod_lt _ (by omega))]
      omega

theorem natRepr_data_inj (a b : Nat) (h : (natRepr a).data = (natRepr b).data) : a = b := by
  unfold natRepr at h
  by_cases ha : a = 0 <;> by_cases hb : b = 0
  · omega
  · rw [if_pos ha, if_neg hb] at h
    have h' : ("0" : String).data = natReprAux b b [] := h
    have hv := natReprAux_val b b (le_refl b)
    rw [← h'] at hv
    have h0 : (0 : Nat) = b := hv
    omega
  · rw [if_neg ha, if_pos hb] at h
    have h' : natReprAux a a [] = ("0" : String).data := h
    have hv := natReprAux_val a a (le_refl a)
    rw [h'] at hv
    have h0 : (0 : Nat) = a := hv
    omega
  · rw [if_neg ha, if_neg hb] at h
    have hva := natReprAux_val a a (le_refl a)
    have hvb := natReprAux_val b b (le_refl b)
    have hd : natReprAux a a [] = natReprAux b b [] := h
    rw [hd] at hva
    rw [hvb] at hva
    omega

/-- C10: an NVMe record carrying none of the natural-key fields (Name,
DevicePath, Device, SubsystemNQN, Address) is emitted with the positional
id "nvme:k", where k is both its position in the device list and the
number of nodes emitted before it (every record emits exactly one node);
positional ids for distinct positions are distinct, but the id changes
whenever the record's position in the tool output does. -/
theorem C10_positional_nvme_id (out : String) (dev : Json) (k : Nat)
    (hdev : (nvmeDevicesOf out).get? k = some dev)
    (h1 : Json.find? dev "Name" = none)
    (h2 : Json.find? dev "DevicePath" = none)
    (h3 : Json.find? dev "Device" = none)
    (h4 : Json.find? dev "SubsystemNQN" = none)
    (h5 : Json.find? dev "Address" = none) :
    (_parse_nvme_list_json out).get? k = some (nvmeNode dev k) ∧
    (nvmeNode dev k).id = "nvme:" ++ natRepr k ∧
    ∀ k' : Nat, k' ≠ k → "nvme:" ++ natRepr k' ≠ "nvme:" ++ natRepr k := by
  refine ⟨?_, ?_, ?_⟩
  · rw [parse_nvme_eq2, nvmeFold_from]
    show (nvmeNodesFrom 0 (nvmeDevicesOf out)).get? k = _
    rw [nvmeNodesFrom_get, hdev]
    show some (nvmeNode dev (0 + k)) = _
    rw [Nat.zero_add]
  · have hid : (nvmeNode dev k).id =
        (if pyTruthy (pyOr (pyOr (pyOr (pyOr (Json.getJ dev "Name")
            (Json.getJ dev "DevicePath")) (Json.getJ dev "Device"))
            (Json.getJ dev "SubsystemNQN")) (Json.getJ dev "Address")) = true then
          "nvme:" ++ pyStr (pyOr (pyOr (pyOr (pyOr (Json.getJ dev "Name")
            (Json.getJ dev "DevicePath")) (Json.getJ dev "Device"))
            (Json.getJ dev "SubsystemNQN")) (Json.getJ dev "Address"))
        else "nvme:" ++ natRepr k) := rfl
    have hname : Json.getJ dev "Name" = Json.null := by
      unfold Json.getJ Json.getJD
      rw [h1]
      rfl
    have hdp : Json.getJ dev "DevicePath" = Json.null := by
      unfold Json.getJ Json.getJD
      rw [h2]
      rfl
    have hdv : Json.getJ dev "Device" = Json.null := by
      unfold Json.getJ Json.getJD
      rw [h3]
      rfl
    have hnq : Json.getJ dev "SubsystemNQN" = Json.null := by
      unfold Json.getJ Json.getJD
      rw [h4]
      rfl
    have had : Json.getJ dev "Address" = Json.null := by
      unfold Json.getJ Json.getJD
      rw [h5]
      rfl
    rw [hid, hname, hdp, hdv, hnq, had]
    rfl
  · intro k' hk he
    have hd := congrArg String.data he
    simp only [String.data_append] at hd
    exact hk (natRepr_data_inj k' k (List.append_cancel_left hd))

def outC10 : String := "\x7b\"Devices\": [\x7b\"Foo\": \"x\"\x7d]\x7d"

def devC10 : Json := Json.obj [("Foo", Json.str "x")]

theorem C10_witness :
    (nvmeDevicesOf outC10).get? 0 = some devC10 ∧
    Json.find? devC10 "Name" = none ∧
    Json.find? devC10 "DevicePath" = none ∧
    Json.find? devC10 "Device" = none ∧
    Json.find? devC10 "SubsystemNQN" = none ∧
    Json.find? devC10 "Address" = none ∧
    ((_parse_nvme_list_json outC10).get? 0 = some (nvmeNode devC10 0) ∧
     (nvmeNode devC10 0).id = "nvme:" ++ natRepr 0 ∧
     ∀ k' : Nat, k' ≠ 0 → "nvme:" ++ natRepr k' ≠ "nvme:" ++ natRepr 0) :=
  ⟨rfl, rfl, rfl, rfl, rfl, rfl,
   C10_positional_nvme_id outC10 devC10 0 rfl rfl rfl rfl rfl rfl⟩

end Toposcope
